import Mathlib

/-!
Shallow embedding of the StreamEx_Arduino repository (src/StreamEx.h, src/StreamEx.cpp).

Modelling conventions:
* Bytes are `Nat` (the value of a `char`); the NUL terminator is the byte `0`.
* A caller-owned storage region (a `char*` of `capacity` bytes) is a `List Nat`;
  a possibly-null pointer is an `Option (List Nat)` (`none` = `nullptr`).
  A C string argument is a `List Char` holding the characters before the
  terminator (so it never contains an interior NUL), `Option (List Char)`
  when the pointer may be null.
* `uint32_t` values are `Nat`s below `2 ^ 32`; the one place in the source
  where unsigned wraparound is reachable (`_txBufferSize - _txPosition - 1`
  in the pushBack functions) is modelled with explicit mod-2^32 subtraction
  (`u32sub`).  Guarded subtractions (those dominated by a `>` test in the
  source) are plain `Nat` subtraction.
* `memcpy`/`memmove`/`memset` within the storage region are modelled with
  `memWrite`; calls that the source would make on a null pointer are
  undefined behaviour in C and the model then leaves the storage absent.
-/

set_option maxRecDepth 2048

/-- Mod-2^32 subtraction: the value of `a - b` computed in `uint32_t`
arithmetic, for `a b < 2 ^ 32`. -/
def u32sub (a b : Nat) : Nat := (a + 4294967296 - b) % 4294967296

/-- Overwrite `src.length` bytes of `dst` starting at offset `off`
(models `memcpy`/`memmove` into a storage region; in-bounds in every
defined execution of the source). -/
def memWrite (dst : List Nat) (off : Nat) (src : List Nat) : List Nat :=
  dst.take off ++ src ++ dst.drop (off + src.length)

/-- Error codes of `enum class StreamExError` (src/StreamEx.h:283-290). -/
inductive StreamExError where
  | None
  | NullData
  | BufferOverflow
  | SizeZero
  | NotEnoughData
deriving DecidableEq

namespace StreamEx

/-- The mutable fields of `class StreamEx` (src/StreamEx.h:305-710):
the latched error code, the two caller-owned buffers with their declared
sizes, and the two used lengths (`_txPosition`, `_rxPosition`). -/
structure State where
  errorCode : StreamExError
  txBuffer : Option (List Nat)
  rxBuffer : Option (List Nat)
  txBufferSize : Nat
  rxBufferSize : Nat
  txPosition : Nat
  rxPosition : Nat
deriving DecidableEq

/-- The valid bytes currently held by the TX buffer (`storage[0..pos)`). -/
def txContent (s : State) : List Nat := (s.txBuffer.getD []).take s.txPosition

/-- The valid bytes currently held by the RX buffer. -/
def rxContent (s : State) : List Nat := (s.rxBuffer.getD []).take s.rxPosition

/-- Models the constructor `StreamEx::StreamEx` (src/StreamEx.cpp:225-234):
stores the buffer pointers and sizes, zeroes the positions, and zero-fills
each buffer that is non-null with non-zero size. -/
def construct (tx : Option (List Nat)) (txSize : Nat)
    (rx : Option (List Nat)) (rxSize : Nat) : State :=
  let s0 : State :=
    { errorCode := StreamExError.None, txBuffer := tx, rxBuffer := rx,
      txBufferSize := txSize, rxBufferSize := rxSize,
      txPosition := 0, rxPosition := 0 }
  let s1 := match tx with
    | some b =>
        if txSize ≠ 0 then
          { s0 with txBuffer := some (memWrite b 0 (List.replicate txSize 0)) }
        else s0
    | none => s0
  match rx with
  | some b =>
      if rxSize ≠ 0 then
        { s1 with rxBuffer := some (memWrite b 0 (List.replicate rxSize 0)) }
      else s1
  | none => s1

/-- Models `StreamEx::setTxBuffer` (src/StreamEx.cpp:238-244). -/
def setTxBuffer (s : State) (buf : Option (List Nat)) (size : Nat) : State :=
  let s1 := { s with txBuffer := buf, txBufferSize := size, txPosition := 0 }
  match buf with
  | some b =>
      if size ≠ 0 then
        { s1 with txBuffer := some (memWrite b 0 (List.replicate size 0)) }
      else s1
  | none => s1

/-- Models `StreamEx::setRxBuffer` (src/StreamEx.cpp:246-252). -/
def setRxBuffer (s : State) (buf : Option (List Nat)) (size : Nat) : State :=
  let s1 := { s with rxBuffer := buf, rxBufferSize := size, rxPosition := 0 }
  match buf with
  | some b =>
      if size ≠ 0 then
        { s1 with rxBuffer := some (memWrite b 0 (List.replicate size 0)) }
      else s1
  | none => s1

/-- Models `StreamEx::clearTxBuffer` (src/StreamEx.cpp:254-258). -/
def clearTxBuffer (s : State) : State :=
  let s1 := match s.txBuffer with
    | some b =>
        if s.txBufferSize ≠ 0 then
          { s with txBuffer := some (memWrite b 0 (List.replicate s.txBufferSize 0)) }
        else s
    | none => s
  { s1 with txPosition := 0 }

/-- Models `StreamEx::clearRxBuffer` (src/StreamEx.cpp:260-264). -/
def clearRxBuffer (s : State) : State :=
  let s1 := match s.rxBuffer with
    | some b =>
        if s.rxBufferSize ≠ 0 then
          { s with rxBuffer := some (memWrite b 0 (List.replicate s.rxBufferSize 0)) }
        else s
    | none => s
  { s1 with rxPosition := 0 }

/-- Models `StreamEx::_dropFrontTx` (src/StreamEx.cpp:268-274): drop `n`
bytes from the front of the TX buffer, compacting with `memmove` and
re-terminating. -/
def dropFrontTx (s : State) (n : Nat) : State :=
  match s.txBuffer with
  | none => s
  | some buf =>
    if s.txPosition = 0 ∨ n = 0 then s
    else if s.txPosition ≤ n then
      { s with txPosition := 0, txBuffer := some (buf.set 0 0) }
    else
      let moved := (buf.drop n).take (s.txPosition - n)
      let buf1 := (memWrite buf 0 moved).set (s.txPosition - n) 0
      { s with txPosition := s.txPosition - n, txBuffer := some buf1 }

/-- Models `StreamEx::_dropFrontRx` (src/StreamEx.cpp:276-282). -/
def dropFrontRx (s : State) (n : Nat) : State :=
  match s.rxBuffer with
  | none => s
  | some buf =>
    if s.rxPosition = 0 ∨ n = 0 then s
    else if s.rxPosition ≤ n then
      { s with rxPosition := 0, rxBuffer := some (buf.set 0 0) }
    else
      let moved := (buf.drop n).take (s.rxPosition - n)
      let buf1 := (memWrite buf 0 moved).set (s.rxPosition - n) 0
      { s with rxPosition := s.rxPosition - n, rxBuffer := some buf1 }

/-- Models `StreamEx::writeTxBuffer` (src/StreamEx.cpp:286-299): overwrite
the whole TX content.  The size check is against the full capacity; the
unguarded `memcpy` on a null buffer is undefined behaviour in the source
and the model then leaves the storage absent while still setting the
position, as the source does. -/
def writeTxBuffer (s : State) (data : List Nat) (dataSize : Nat) : Bool × State :=
  if dataSize > s.txBufferSize then
    (false, { s with errorCode := StreamExError.BufferOverflow })
  else
    let buf1 := s.txBuffer.map (fun buf => memWrite buf 0 (data.take dataSize))
    let s1 := { s with txBuffer := buf1, txPosition := dataSize }
    match buf1 with
    | some buf =>
        if s1.txBufferSize ≠ 0 then
          let term := if s1.txPosition < s1.txBufferSize then s1.txPosition
                      else s1.txBufferSize - 1
          (true, { s1 with txBuffer := some (buf.set term 0) })
        else (true, s1)
    | none => (true, s1)

/-- Models `StreamEx::writeRxBuffer` (src/StreamEx.cpp:301-314). -/
def writeRxBuffer (s : State) (data : List Nat) (dataSize : Nat) : Bool × State :=
  if dataSize > s.rxBufferSize then
    (false, { s with errorCode := StreamExError.BufferOverflow })
  else
    let buf1 := s.rxBuffer.map (fun buf => memWrite buf 0 (data.take dataSize))
    let s1 := { s with rxBuffer := buf1, rxPosition := dataSize }
    match buf1 with
    | some buf =>
        if s1.rxBufferSize ≠ 0 then
          let term := if s1.rxPosition < s1.rxBufferSize then s1.rxPosition
                      else s1.rxBufferSize - 1
          (true, { s1 with rxBuffer := some (buf.set term 0) })
        else (true, s1)
    | none => (true, s1)

/-- Models `StreamEx::pushBackTxBuffer` (src/StreamEx.cpp:316-339): append
with sliding-window eviction.  `canCopy` uses `u32sub` because the source
computes `_txBufferSize - _txPosition - 1` in `uint32_t` with no guard at
that point.  The inner `none` match arm is unreachable (the buffer was
checked non-null and `dropFrontTx` preserves that). -/
def pushBackTxBuffer (s : State) (data : Option (List Nat)) (dataSize : Nat) :
    Bool × State :=
  match data with
  | none => (false, { s with errorCode := StreamExError.NullData })
  | some d =>
    match s.txBuffer with
    | none => (false, { s with errorCode := StreamExError.BufferOverflow })
    | some _ =>
      if s.txBufferSize = 0 then
        (false, { s with errorCode := StreamExError.BufferOverflow })
      else
        let freeCap := if s.txBufferSize > s.txPosition
                       then s.txBufferSize - s.txPosition - 1 else 0
        let s1 := if dataSize > freeCap then
            { dropFrontTx s (dataSize - freeCap) with
              errorCode := StreamExError.BufferOverflow }
          else s
        let canCopy := min dataSize (u32sub (u32sub s1.txBufferSize s1.txPosition) 1)
        if canCopy ≠ 0 then
          match s1.txBuffer with
          | some buf1 =>
            let pos2 := s1.txPosition + canCopy
            let buf2 := (memWrite buf1 s1.txPosition (d.take canCopy)).set pos2 0
            (canCopy == dataSize, { s1 with txBuffer := some buf2, txPosition := pos2 })
          | none => (canCopy == dataSize, s1)
        else (canCopy == dataSize, s1)

/-- Models `StreamEx::pushBackRxBuffer` (src/StreamEx.cpp:355-375). -/
def pushBackRxBuffer (s : State) (data : Option (List Nat)) (dataSize : Nat) :
    Bool × State :=
  match data with
  | none => (false, { s with errorCode := StreamExError.NullData })
  | some d =>
    match s.rxBuffer with
    | none => (false, { s with errorCode := StreamExError.BufferOverflow })
    | some _ =>
      if s.rxBufferSize = 0 then
        (false, { s with errorCode := StreamExError.BufferOverflow })
      else
        let freeCap := if s.rxBufferSize > s.rxPosition
                       then s.rxBufferSize - s.rxPosition - 1 else 0
        let s1 := if dataSize > freeCap then
            { dropFrontRx s (dataSize - freeCap) with
              errorCode := StreamExError.BufferOverflow }
          else s
        let canCopy := min dataSize (u32sub (u32sub s1.rxBufferSize s1.rxPosition) 1)
        if canCopy ≠ 0 then
          match s1.rxBuffer with
          | some buf1 =>
            let pos2 := s1.rxPosition + canCopy
            let buf2 := (memWrite buf1 s1.rxPosition (d.take canCopy)).set pos2 0
            (canCopy == dataSize, { s1 with rxBuffer := some buf2, rxPosition := pos2 })
          | none => (canCopy == dataSize, s1)
        else (canCopy == dataSize, s1)

/-- Models `StreamEx::popFrontTxBuffer(char*, uint32_t)`
(src/StreamEx.cpp:391-407).  `outNull` is whether the destination pointer
is null; the middle component of the result is the run of bytes copied
into the destination. -/
def popFrontTxBuffer (s : State) (outNull : Bool) (dataSize : Nat) :
    Bool × List Nat × State :=
  if outNull then (false, [], { s with errorCode := StreamExError.NullData })
  else if dataSize = 0 then (false, [], { s with errorCode := StreamExError.SizeZero })
  else
    let clamped := if dataSize > s.txPosition then s.txPosition else dataSize
    let s1 := if dataSize > s.txPosition then
        { s with errorCode := StreamExError.NotEnoughData }
      else s
    if clamped = 0 then (false, [], s1)
    else
      let copied := (s1.txBuffer.getD []).take clamped
      let s2 := dropFrontTx s1 clamped
      (decide (s2.errorCode ≠ StreamExError.NotEnoughData), copied, s2)

/-- Models `StreamEx::popFrontRxBuffer(char*, uint32_t)`
(src/StreamEx.cpp:463-474). -/
def popFrontRxBuffer (s : State) (outNull : Bool) (dataSize : Nat) :
    Bool × List Nat × State :=
  if outNull then (false, [], { s with errorCode := StreamExError.NullData })
  else if dataSize = 0 then (false, [], { s with errorCode := StreamExError.SizeZero })
  else
    let clamped := if dataSize > s.rxPosition then s.rxPosition else dataSize
    let s1 := if dataSize > s.rxPosition then
        { s with errorCode := StreamExError.NotEnoughData }
      else s
    if clamped = 0 then (false, [], s1)
    else
      let copied := (s1.rxBuffer.getD []).take clamped
      let s2 := dropFrontRx s1 clamped
      (decide (s2.errorCode ≠ StreamExError.NotEnoughData), copied, s2)

/-- Models `StreamEx::popAllTxBuffer(char*, uint32_t)`
(src/StreamEx.cpp:436-443). -/
def popAllTxBuffer (s : State) (outNull : Bool) (maxSize : Nat) :
    Bool × List Nat × State :=
  if outNull then (false, [], { s with errorCode := StreamExError.NullData })
  else if maxSize = 0 then (false, [], { s with errorCode := StreamExError.SizeZero })
  else
    let take := min s.txPosition maxSize
    let copied := (s.txBuffer.getD []).take take
    let s1 := dropFrontTx s take
    (decide (take = maxSize ∨ s1.txPosition = 0), copied, s1)

/-- Models `StreamEx::popAllRxBuffer(char*, uint32_t)`
(src/StreamEx.cpp:502-509). -/
def popAllRxBuffer (s : State) (outNull : Bool) (maxSize : Nat) :
    Bool × List Nat × State :=
  if outNull then (false, [], { s with errorCode := StreamExError.NullData })
  else if maxSize = 0 then (false, [], { s with errorCode := StreamExError.SizeZero })
  else
    let take := min s.rxPosition maxSize
    let copied := (s.rxBuffer.getD []).take take
    let s1 := dropFrontRx s take
    (decide (take = maxSize ∨ s1.rxPosition = 0), copied, s1)

/-- Models `StreamEx::removeFrontTxBuffer` (src/StreamEx.cpp:531-545).
The `none` storage arm is undefined behaviour in the source (`memmove` on
a null pointer, reachable only with `dataSize ≤ _txPosition`, which in any
defined execution forces `_txPosition = 0`); the model updates the
position only. -/
def removeFrontTxBuffer (s : State) (dataSize : Nat) : Bool × State :=
  if dataSize > s.txPosition then
    (false, { s with errorCode := StreamExError.NotEnoughData })
  else
    match s.txBuffer with
    | none => (true, { s with txPosition := s.txPosition - dataSize })
    | some buf =>
      let moved := (buf.drop dataSize).take (s.txPosition - dataSize)
      let buf1 := (memWrite buf 0 moved).set (s.txPosition - dataSize) 0
      (true, { s with txPosition := s.txPosition - dataSize, txBuffer := some buf1 })

/-- Models `StreamEx::removeFrontRxBuffer` (src/StreamEx.cpp:547-561). -/
def removeFrontRxBuffer (s : State) (dataSize : Nat) : Bool × State :=
  if dataSize > s.rxPosition then
    (false, { s with errorCode := StreamExError.NotEnoughData })
  else
    match s.rxBuffer with
    | none => (true, { s with rxPosition := s.rxPosition - dataSize })
    | some buf =>
      let moved := (buf.drop dataSize).take (s.rxPosition - dataSize)
      let buf1 := (memWrite buf 0 moved).set (s.rxPosition - dataSize) 0
      (true, { s with rxPosition := s.rxPosition - dataSize, rxBuffer := some buf1 })

/-- Models `StreamEx::write(const uint8_t*, size_t)`
(src/StreamEx.cpp:591-597): append via `pushBackTxBuffer`, returning the
requested size on full success and the current TX fill otherwise. -/
def write (s : State) (buffer : Option (List Nat)) (size : Nat) : Nat × State :=
  if buffer.isNone ∨ size = 0 then (0, { s with errorCode := StreamExError.SizeZero })
  else
    let r := pushBackTxBuffer s buffer size
    (if r.1 then size else r.2.txPosition, r.2)

end StreamEx

/-- Enumeration `dataTypeEnum` of supported value kinds (src/StreamEx.h:66-82). -/
inductive dataTypeEnum where
  | noneType
  | uint8Type
  | uint16Type
  | uint32Type
  | uint64Type
  | int8Type
  | int16Type
  | int32Type
  | int64Type
  | floatType
  | doubleType
  | charType
  | stringType
  | boolType
deriving DecidableEq

/-- Capacity of the inline string member of the value union
(`STREAMEX_STRING_CAP`, src/StreamEx.h:58-60, default configuration). -/
def STREAMEX_STRING_CAP : Nat := 32

/-- Models `union dataValueUnion` (src/StreamEx.h:104-118) as the record of
which member a conversion wrote and the value written.  Float and double
members carry the exact decimal rational of the parsed text, abstracting
binary floating-point rounding.  The union has no dedicated `char` member;
the source stores a character through `uint8Value`. -/
inductive dataValueUnion where
  | uint8Value (v : Nat)
  | uint16Value (v : Nat)
  | uint32Value (v : Nat)
  | uint64Value (v : Nat)
  | int8Value (v : Int)
  | int16Value (v : Int)
  | int32Value (v : Int)
  | int64Value (v : Int)
  | floatValue (v : ℚ)
  | doubleValue (v : ℚ)
  | stringValue (s : List Char)
  | boolValue (b : Bool)
deriving DecidableEq

namespace StreamEx_utility

/-- ASCII whitespace as classified by C `isspace` in the default locale. -/
def isspaceB (c : Char) : Bool :=
  decide (c = ' ' ∨ c = '\t' ∨ c = '\n' ∨ c.toNat = 11 ∨ c.toNat = 12 ∨ c = '\r')

/-- Decimal digit test (`*s >= '0' && *s <= '9'` in the source loops). -/
def isDigitB (c : Char) : Bool :=
  decide ('0' ≤ c ∧ c ≤ '9')

/-- Value of a run of decimal digits. -/
def digitsToNat (ds : List Char) : Nat :=
  ds.foldl (fun a c => a * 10 + (c.toNat - 48)) 0

/-- Optional single leading sign, as consumed by the C `strto*` parsers:
returns (negative?, remainder). -/
def splitSign (w : List Char) : Bool × List Char :=
  match w with
  | c :: r => if c = '-' then (true, r) else if c = '+' then (false, r) else (false, w)
  | [] => (false, [])

/-- Models C `strtoul(s, &e, 10)` on a 32-bit `unsigned long` (the Arduino
targets this library is written for), combined with the source's success
test `e && *e == '\0'`: returns the converted value exactly when the whole
string is consumed.  Skips leading whitespace, takes an optional sign,
then a digit run; on overflow the value clamps to `ULONG_MAX`; a leading
minus negates in unsigned arithmetic.  When no digits are found `endptr`
is reset to the start, so the success test passes only for the empty
string (value 0). -/
def strtoulModel (s : List Char) : Option Nat :=
  let w := s.dropWhile isspaceB
  let p := splitSign w
  let ds := p.2.takeWhile isDigitB
  let rest := p.2.dropWhile isDigitB
  if ds.isEmpty then
    if s.isEmpty then some 0 else none
  else if rest.isEmpty then
    let mag := digitsToNat ds
    some (if mag > 4294967295 then 4294967295
          else if p.1 then (4294967296 - mag) % 4294967296 else mag)
  else none

/-- Models C `strtoull(s, &e, 10)` on a 64-bit `unsigned long long` with
the success test `e && *e == '\0'`, as `strtoulModel`. -/
def strtoullModel (s : List Char) : Option Nat :=
  let w := s.dropWhile isspaceB
  let p := splitSign w
  let ds := p.2.takeWhile isDigitB
  let rest := p.2.dropWhile isDigitB
  if ds.isEmpty then
    if s.isEmpty then some 0 else none
  else if rest.isEmpty then
    let mag := digitsToNat ds
    some (if mag > 18446744073709551615 then 18446744073709551615
          else if p.1 then (18446744073709551616 - mag) % 18446744073709551616 else mag)
  else none

/-- Models C `strtoll(s, &e, 10)` on a 64-bit `long long` with the success
test `e && *e == '\0'`; the value clamps to `LLONG_MIN`/`LLONG_MAX` on
overflow. -/
def strtollModel (s : List Char) : Option Int :=
  let w := s.dropWhile isspaceB
  let p := splitSign w
  let ds := p.2.takeWhile isDigitB
  let rest := p.2.dropWhile isDigitB
  if ds.isEmpty then
    if s.isEmpty then some 0 else none
  else if rest.isEmpty then
    let mag := digitsToNat ds
    some (if p.1 then
            (if mag > 9223372036854775808 then -9223372036854775808 else -(mag : Int))
          else
            (if mag > 9223372036854775807 then 9223372036854775807 else (mag : Int)))
  else none

/-- Models C `strtof(s, &e)` with the success test `e && *e == '\0'`,
returning the exact decimal rational of the consumed text (abstracting
binary rounding).  Grammar modelled: whitespace, optional sign, a decimal
digit string with optional point (at least one digit), then an optional
exponent part that is consumed only when it has at least one digit.  The
hexadecimal, infinity and NaN forms accepted by C are omitted: they are
unreachable from the repository's validators, whose grammar admits only
sign, digits and a point. -/
def strtofModel (s : List Char) : Option ℚ :=
  let w := s.dropWhile isspaceB
  let p := splitSign w
  let ip := p.2.takeWhile isDigitB
  let t1 := p.2.dropWhile isDigitB
  let fpt : List Char × List Char := match t1 with
    | '.' :: r => (r.takeWhile isDigitB, r.dropWhile isDigitB)
    | _ => ([], t1)
  if ip.isEmpty ∧ fpt.1.isEmpty then
    if s.isEmpty then some 0 else none
  else
    let et : Int × List Char := match fpt.2 with
      | c :: r =>
        if c = 'e' ∨ c = 'E' then
          let q := splitSign r
          let eds := q.2.takeWhile isDigitB
          if eds.isEmpty then (0, fpt.2)
          else ((if q.1 then -(digitsToNat eds : Int) else (digitsToNat eds : Int)),
                q.2.dropWhile isDigitB)
        else (0, fpt.2)
      | [] => (0, [])
    if et.2.isEmpty then
      let mag : ℚ := (digitsToNat ip : ℚ) + (digitsToNat fpt.1 : ℚ) / ((10 : ℚ) ^ fpt.1.length)
      some ((if p.1 then -mag else mag) * (10 : ℚ) ^ et.1)
    else none

/-- Models C `strtod` as `strtofModel`: identical grammar and, in this
model, the identical exact decimal rational (only binary precision would
differ, and it is abstracted). -/
def strtodModel (s : List Char) : Option ℚ :=
  strtofModel s

/-- Models `StreamEx_utility::tolow` (src/StreamEx.cpp:25): ASCII
lowercasing as C `tolower` in the default locale. -/
def tolow (c : Char) : Char :=
  if 'A' ≤ c ∧ c ≤ 'Z' then Char.ofNat (c.toNat + 32) else c

/-- Loop of `StreamEx_utility::iequal` (src/StreamEx.cpp:27-36) on the
character lists of two non-null strings. -/
def iequalList : List Char → List Char → Bool
  | [], [] => true
  | a :: as, b :: bs => (tolow a == tolow b) && iequalList as bs
  | _, _ => false

/-- Models `StreamEx_utility::iequal` (src/StreamEx.cpp:27-36):
case-insensitive equality, null pointers never equal. -/
def iequal (a b : Option (List Char)) : Bool :=
  match a, b with
  | some x, some y => iequalList x y
  | _, _ => false

/-- Digit/point scanning loop of `StreamEx_utility::isNumber`
(src/StreamEx.cpp:43-48); `digit` and `dot` are the loop flags. -/
def isNumberCore : List Char → Bool → Bool → Bool
  | [], digit, _ => digit
  | c :: rest, digit, dot =>
    if isDigitB c then isNumberCore rest true dot
    else if c = '.' ∧ dot = false then isNumberCore rest digit true
    else false

/-- Models `StreamEx_utility::isNumber` (src/StreamEx.cpp:38-50). -/
def isNumber (s? : Option (List Char)) : Bool :=
  match s? with
  | none => false
  | some [] => false
  | some (c :: rest) =>
    isNumberCore (if c = '+' ∨ c = '-' then rest else c :: rest) false false

/-- Digit loop shared by `isInteger`/`isUInteger` (src/StreamEx.cpp:57,66). -/
def allDigits : List Char → Bool
  | [] => true
  | c :: r => isDigitB c && allDigits r

/-- Models `StreamEx_utility::isInteger` (src/StreamEx.cpp:52-59). -/
def isInteger (s? : Option (List Char)) : Bool :=
  match s? with
  | none => false
  | some [] => false
  | some (c :: rest) =>
    let t := if c = '+' ∨ c = '-' then rest else c :: rest
    if t.isEmpty then false else allDigits t

/-- Models `StreamEx_utility::isUInteger` (src/StreamEx.cpp:61-68). -/
def isUInteger (s? : Option (List Char)) : Bool :=
  match s? with
  | none => false
  | some [] => false
  | some (c :: rest) =>
    if c = '-' then false
    else
      let t := if c = '+' then rest else c :: rest
      if t.isEmpty then false else allDigits t

/-- Models `StreamEx_utility::isUInt8` (src/StreamEx.cpp:93). -/
def isUInt8 (s? : Option (List Char)) : Bool :=
  match s? with
  | none => false
  | some s =>
    if !isUInteger (some s) then false
    else match strtoulModel s with
      | none => false
      | some v => decide (v ≤ 255)

/-- Models `StreamEx_utility::isUInt16` (src/StreamEx.cpp:94). -/
def isUInt16 (s? : Option (List Char)) : Bool :=
  match s? with
  | none => false
  | some s =>
    if !isUInteger (some s) then false
    else match strtoulModel s with
      | none => false
      | some v => decide (v ≤ 65535)

/-- Models `StreamEx_utility::isUInt32` (src/StreamEx.cpp:95).  Note the
source checks only full consumption, not the value: `strtoul` clamps
silently. -/
def isUInt32 (s? : Option (List Char)) : Bool :=
  match s? with
  | none => false
  | some s =>
    if !isUInteger (some s) then false
    else (strtoulModel s).isSome

/-- Models `StreamEx_utility::isUInt64` (src/StreamEx.cpp:96). -/
def isUInt64 (s? : Option (List Char)) : Bool :=
  match s? with
  | none => false
  | some s =>
    if !isUInteger (some s) then false
    else (strtoullModel s).isSome

/-- Models `StreamEx_utility::isInt8` (src/StreamEx.cpp:98). -/
def isInt8 (s? : Option (List Char)) : Bool :=
  match s? with
  | none => false
  | some s =>
    if !isInteger (some s) then false
    else match strtollModel s with
      | none => false
      | some v => decide (-128 ≤ v ∧ v ≤ 127)

/-- Models `StreamEx_utility::isInt16` (src/StreamEx.cpp:99). -/
def isInt16 (s? : Option (List Char)) : Bool :=
  match s? with
  | none => false
  | some s =>
    if !isInteger (some s) then false
    else match strtollModel s with
      | none => false
      | some v => decide (-32768 ≤ v ∧ v ≤ 32767)

/-- Models `StreamEx_utility::isInt32` (src/StreamEx.cpp:100). -/
def isInt32 (s? : Option (List Char)) : Bool :=
  match s? with
  | none => false
  | some s =>
    if !isInteger (some s) then false
    else match strtollModel s with
      | none => false
      | some v => decide (-2147483648 ≤ v ∧ v ≤ 2147483647)

/-- Models `StreamEx_utility::isInt64` (src/StreamEx.cpp:101). -/
def isInt64 (s? : Option (List Char)) : Bool :=
  match s? with
  | none => false
  | some s =>
    if !isInteger (some s) then false
    else (strtollModel s).isSome

/-- Models `StreamEx_utility::isFloat` (src/StreamEx.cpp:103). -/
def isFloat (s? : Option (List Char)) : Bool :=
  match s? with
  | none => false
  | some s =>
    if !isNumber (some s) then false
    else (strtofModel s).isSome

/-- Models `StreamEx_utility::isDouble` (src/StreamEx.cpp:104). -/
def isDouble (s? : Option (List Char)) : Bool :=
  match s? with
  | none => false
  | some s =>
    if !isNumber (some s) then false
    else (strtodModel s).isSome

/-- The characters of the literal "true". -/
def trueChars : List Char := ['t', 'r', 'u', 'e']

/-- The characters of the literal "false". -/
def falseChars : List Char := ['f', 'a', 'l', 's', 'e']

/-- Models `StreamEx_utility::isBoolean` (src/StreamEx.cpp:106-112). -/
def isBoolean (s? : Option (List Char)) : Bool :=
  match s? with
  | none => false
  | some s =>
    if (s == ['0']) || (s == ['1']) then true
    else iequalList s trueChars || iequalList s falseChars

/-- Models `StreamEx_utility::stringToUint8` (src/StreamEx.cpp:116) with a
non-null output pointer; `some v` is success with `*out = v`. -/
def stringToUint8 (s? : Option (List Char)) : Option Nat :=
  match s? with
  | none => none
  | some s =>
    match strtoulModel s with
    | none => none
    | some v => if v > 255 then none else some v

/-- Models `StreamEx_utility::stringToUint16` (src/StreamEx.cpp:117). -/
def stringToUint16 (s? : Option (List Char)) : Option Nat :=
  match s? with
  | none => none
  | some s =>
    match strtoulModel s with
    | none => none
    | some v => if v > 65535 then none else some v

/-- Models `StreamEx_utility::stringToUint32` (src/StreamEx.cpp:118). -/
def stringToUint32 (s? : Option (List Char)) : Option Nat :=
  match s? with
  | none => none
  | some s => strtoulModel s

/-- Models `StreamEx_utility::stringToUint64` (src/StreamEx.cpp:119). -/
def stringToUint64 (s? : Option (List Char)) : Option Nat :=
  match s? with
  | none => none
  | some s => strtoullModel s

/-- Models `StreamEx_utility::stringToInt8` (src/StreamEx.cpp:121). -/
def stringToInt8 (s? : Option (List Char)) : Option Int :=
  match s? with
  | none => none
  | some s =>
    match strtollModel s with
    | none => none
    | some v => if v < -128 ∨ v > 127 then none else some v

/-- Models `StreamEx_utility::stringToInt16` (src/StreamEx.cpp:122). -/
def stringToInt16 (s? : Option (List Char)) : Option Int :=
  match s? with
  | none => none
  | some s =>
    match strtollModel s with
    | none => none
    | some v => if v < -32768 ∨ v > 32767 then none else some v

/-- Models `StreamEx_utility::stringToInt32` (src/StreamEx.cpp:123). -/
def stringToInt32 (s? : Option (List Char)) : Option Int :=
  match s? with
  | none => none
  | some s =>
    match strtollModel s with
    | none => none
    | some v => if v < -2147483648 ∨ v > 2147483647 then none else some v

/-- Models `StreamEx_utility::stringToInt64` (src/StreamEx.cpp:124). -/
def stringToInt64 (s? : Option (List Char)) : Option Int :=
  match s? with
  | none => none
  | some s => strtollModel s

/-- Models `StreamEx_utility::stringToFloat` (src/StreamEx.cpp:126). -/
def stringToFloat (s? : Option (List Char)) : Option ℚ :=
  match s? with
  | none => none
  | some s => strtofModel s

/-- Models `StreamEx_utility::stringToDouble` (src/StreamEx.cpp:127). -/
def stringToDouble (s? : Option (List Char)) : Option ℚ :=
  match s? with
  | none => none
  | some s => strtodModel s

/-- Models `StreamEx_utility::checkValueType` (src/StreamEx.cpp:129-148). -/
def checkValueType (data : Option (List Char)) (type : dataTypeEnum) : Bool :=
  match type with
  | .uint8Type => isUInt8 data
  | .uint16Type => isUInt16 data
  | .uint32Type => isUInt32 data
  | .uint64Type => isUInt64 data
  | .int8Type => isInt8 data
  | .int16Type => isInt16 data
  | .int32Type => isInt32 data
  | .int64Type => isInt64 data
  | .floatType => isFloat data
  | .doubleType => isDouble data
  | .charType => true
  | .stringType => true
  | .boolType => isBoolean data
  | .noneType => false

/-- Models `StreamEx_utility::stringToNumber` (src/StreamEx.cpp:150-187)
with a non-null `num` pointer: `some w` means the call returned true after
writing union member `w`.  For `stringType` the source copies at most
`STREAMEX_STRING_CAP - 1` characters and NUL-terminates; for `charType`
it stores the first character (or 0 for the empty string) through the
`uint8Value` member. -/
def stringToNumber (str : Option (List Char)) (type : dataTypeEnum) :
    Option dataValueUnion :=
  match str with
  | none => none
  | some s =>
    match type with
    | .uint8Type => (stringToUint8 (some s)).map dataValueUnion.uint8Value
    | .uint16Type => (stringToUint16 (some s)).map dataValueUnion.uint16Value
    | .uint32Type => (stringToUint32 (some s)).map dataValueUnion.uint32Value
    | .uint64Type => (stringToUint64 (some s)).map dataValueUnion.uint64Value
    | .int8Type => (stringToInt8 (some s)).map dataValueUnion.int8Value
    | .int16Type => (stringToInt16 (some s)).map dataValueUnion.int16Value
    | .int32Type => (stringToInt32 (some s)).map dataValueUnion.int32Value
    | .int64Type => (stringToInt64 (some s)).map dataValueUnion.int64Value
    | .floatType => (stringToFloat (some s)).map dataValueUnion.floatValue
    | .doubleType => (stringToDouble (some s)).map dataValueUnion.doubleValue
    | .boolType =>
        some (dataValueUnion.boolValue ((s == ['1']) || iequalList s trueChars))
    | .stringType =>
        some (dataValueUnion.stringValue (s.take (STREAMEX_STRING_CAP - 1)))
    | .charType =>
        some (dataValueUnion.uint8Value (match s with | [] => 0 | c :: _ => c.toNat))
    | .noneType => none

/-- Whether a written union value sits in the member that the given type
tag designates.  The union (src/StreamEx.h:104-118) has no dedicated char
member; the `uint8Value` member is the designated slot for `charType`. -/
def writesDesignatedMember : dataValueUnion → dataTypeEnum → Bool
  | .uint8Value _, .uint8Type => true
  | .uint8Value _, .charType => true
  | .uint16Value _, .uint16Type => true
  | .uint32Value _, .uint32Type => true
  | .uint64Value _, .uint64Type => true
  | .int8Value _, .int8Type => true
  | .int16Value _, .int16Type => true
  | .int32Value _, .int32Type => true
  | .int64Value _, .int64Type => true
  | .floatValue _, .floatType => true
  | .doubleValue _, .doubleType => true
  | .stringValue _, .stringType => true
  | .boolValue _, .boolType => true
  | _, _ => false

end StreamEx_utility


/-! ### Helper lemmas about the storage model -/

/-- Taking at most the written index ignores the write. -/
theorem take_set_of_le {α : Type} (l : List α) (i n : Nat) (v : α) (h : n ≤ i) :
    (l.set i v).take n = l.take n := by
  rw [List.set_eq_take_append_cons_drop]
  split
  · rw [List.take_append_eq_append_take, List.take_take]
    have h1 : n ⊓ i = n := Nat.min_eq_left h
    have h2 : n - (List.take i l).length = 0 := by
      rw [List.length_take]
      omega
    rw [h1, h2]
    simp
  · rfl

theorem u32sub_eq {a b : Nat} (hb : b ≤ a) (ha : a < 4294967296) :
    u32sub a b = a - b := by
  unfold u32sub
  omega

theorem memWrite_length {dst src : List Nat} {off : Nat}
    (h : off + src.length ≤ dst.length) :
    (memWrite dst off src).length = dst.length := by
  simp [memWrite, List.length_take, List.length_drop]
  omega

/-- Reading back the preserved prefix plus exactly the written window. -/
theorem memWrite_take {dst src : List Nat} {off : Nat}
    (h : off ≤ dst.length) :
    (memWrite dst off src).take (off + src.length) = dst.take off ++ src := by
  unfold memWrite
  rw [List.take_append_eq_append_take, List.take_append_eq_append_take]
  have h1 : (dst.take off).length = off := by
    rw [List.length_take]; omega
  have h2 : (dst.take off ++ src).length = off + src.length := by
    rw [List.length_append, h1]
  rw [h1, h2]
  have h3 : List.take (off + src.length) (dst.take off) = dst.take off :=
    List.take_of_length_le (by rw [h1]; omega)
  rw [h3]
  have h4 : off + src.length - off = src.length := by omega
  rw [h4, List.take_length]
  simp

namespace StreamEx

/-- Full characterisation of `dropFrontTx` on a bound buffer whose used
length fits the storage: the position drops by `n` (to zero when `n`
covers it), the storage keeps its length, the valid content loses its
first `n` bytes, and all other fields are untouched. -/
theorem dropFrontTx_spec (s : State) (n : Nat) (buf : List Nat)
    (hb : s.txBuffer = some buf) (hlen : s.txPosition ≤ buf.length) :
    ∃ buf', (dropFrontTx s n).txBuffer = some buf' ∧
      buf'.length = buf.length ∧
      (dropFrontTx s n).txPosition = s.txPosition - n ∧
      buf'.take (s.txPosition - n) = (buf.take s.txPosition).drop n ∧
      (dropFrontTx s n).errorCode = s.errorCode ∧
      (dropFrontTx s n).txBufferSize = s.txBufferSize ∧
      (dropFrontTx s n).rxBuffer = s.rxBuffer ∧
      (dropFrontTx s n).rxBufferSize = s.rxBufferSize ∧
      (dropFrontTx s n).rxPosition = s.rxPosition := by
  by_cases h0 : s.txPosition = 0 ∨ n = 0
  · have he : dropFrontTx s n = s := by
      simp only [dropFrontTx, hb]
      rw [if_pos h0]
    rw [he]
    refine ⟨buf, hb, rfl, by rcases h0 with h | h <;> omega, ?_, rfl, rfl, rfl, rfl, rfl⟩
    rcases h0 with h | h <;> simp [h]
  · by_cases hle : s.txPosition ≤ n
    · have he : dropFrontTx s n =
          { s with txPosition := 0, txBuffer := some (buf.set 0 0) } := by
        simp only [dropFrontTx, hb]
        rw [if_neg h0, if_pos hle]
      rw [he]
      refine ⟨buf.set 0 0, rfl, by simp, by simp; omega, ?_, rfl, rfl, rfl, rfl, rfl⟩
      have h1 : s.txPosition - n = 0 := by omega
      have h2 : (buf.take s.txPosition).length ≤ n := by
        rw [List.length_take]; omega
      rw [h1, List.drop_eq_nil_of_le h2]
      simp
    · have hlt : n < s.txPosition := by omega
      have he : dropFrontTx s n = { s with txPosition := s.txPosition - n, txBuffer := some ((memWrite buf 0 ((buf.drop n).take (s.txPosition - n))).set (s.txPosition - n) 0) } := by
        simp only [dropFrontTx, hb]
        rw [if_neg h0, if_neg hle]
      rw [he]
      set moved := (buf.drop n).take (s.txPosition - n) with hmoved
      have hmlen : moved.length = s.txPosition - n := by
        rw [hmoved, List.length_take, List.length_drop]
        omega
      have hwlen : (memWrite buf 0 moved).length = buf.length := by
        apply memWrite_length
        omega
      refine ⟨(memWrite buf 0 moved).set (s.txPosition - n) 0, rfl,
        by simp [hwlen], rfl, ?_, rfl, rfl, rfl, rfl, rfl⟩
      rw [take_set_of_le _ _ _ _ (le_refl _)]
      have h3 : (memWrite buf 0 moved).take (0 + moved.length) = buf.take 0 ++ moved := by
        apply memWrite_take
        omega
      rw [hmlen] at h3
      simp only [Nat.zero_add, List.take_zero, List.nil_append] at h3
      rw [h3, hmoved, List.drop_take]

/-- `dropFrontTx` is the identity when the TX storage pointer is null. -/
theorem dropFrontTx_none (s : State) (n : Nat) (hb : s.txBuffer = none) :
    dropFrontTx s n = s := by
  simp only [dropFrontTx, hb]

end StreamEx

namespace StreamEx

/-- Behaviour of `pushBackTxBuffer` when the request fits in the free
space `capacity - used - 1`: no eviction, no error, all bytes appended. -/
theorem pushBackTx_fits (s : State) (d buf : List Nat)
    (hb : s.txBuffer = some buf) (hblen : buf.length = s.txBufferSize)
    (hcap32 : s.txBufferSize < 4294967296)
    (hpos : s.txPosition < s.txBufferSize)
    (hfit : d.length ≤ s.txBufferSize - s.txPosition - 1) :
    (pushBackTxBuffer s (some d) d.length).1 = true ∧
    (pushBackTxBuffer s (some d) d.length).2.errorCode = s.errorCode ∧
    (pushBackTxBuffer s (some d) d.length).2.txPosition = s.txPosition + d.length ∧
    (pushBackTxBuffer s (some d) d.length).2.txBufferSize = s.txBufferSize ∧
    (pushBackTxBuffer s (some d) d.length).2.rxBuffer = s.rxBuffer ∧
    (pushBackTxBuffer s (some d) d.length).2.rxBufferSize = s.rxBufferSize ∧
    (pushBackTxBuffer s (some d) d.length).2.rxPosition = s.rxPosition ∧
    ∃ buf', (pushBackTxBuffer s (some d) d.length).2.txBuffer = some buf' ∧
      buf'.length = buf.length ∧
      buf'.take (s.txPosition + d.length) = buf.take s.txPosition ++ d := by
  have hcap0 : ¬(s.txBufferSize = 0) := by omega
  have hgt : s.txBufferSize > s.txPosition := hpos
  have hnov : ¬(d.length > s.txBufferSize - s.txPosition - 1) := by omega
  have hu1 : u32sub s.txBufferSize s.txPosition = s.txBufferSize - s.txPosition :=
    u32sub_eq (Nat.le_of_lt hpos) hcap32
  have hu2 : u32sub (s.txBufferSize - s.txPosition) 1 = s.txBufferSize - s.txPosition - 1 :=
    u32sub_eq (by omega) (by omega)
  have hmin : min d.length (s.txBufferSize - s.txPosition - 1) = d.length :=
    Nat.min_eq_left hfit
  by_cases hd0 : d.length = 0
  · have hD : d = [] := List.eq_nil_of_length_eq_zero hd0
    subst hD
    have hres : pushBackTxBuffer s (some []) (List.length ([] : List Nat)) = (true, s) := by
      simp only [pushBackTxBuffer, hb, if_neg hcap0, if_pos hgt, hu1, hu2]
      simp
    simp only [List.length_nil] at hres ⊢
    rw [hres]
    exact ⟨rfl, rfl, by simp, rfl, rfl, rfl, rfl, buf, hb, rfl, by simp⟩
  · have hd0' : d.length ≠ 0 := hd0
    have hres : pushBackTxBuffer s (some d) d.length =
        (true, { s with txBuffer := some ((memWrite buf s.txPosition d).set (s.txPosition + d.length) 0), txPosition := s.txPosition + d.length }) := by
      simp only [pushBackTxBuffer, hb, if_neg hcap0, if_pos hgt, if_neg hnov, hu1, hu2,
        hmin, if_pos hd0']
      simp [List.take_length]
    rw [hres]
    refine ⟨rfl, rfl, rfl, rfl, rfl, rfl, rfl,
      (memWrite buf s.txPosition d).set (s.txPosition + d.length) 0, rfl, ?_, ?_⟩
    · rw [List.length_set]
      apply memWrite_length
      omega
    · rw [take_set_of_le _ _ _ _ (le_refl _)]
      exact memWrite_take (by omega)

end StreamEx

namespace StreamEx

/-- Behaviour of `pushBackTxBuffer` when the request exceeds the free
space but is at most `capacity - 1`: exactly the deficit of oldest bytes
is evicted, all requested bytes are appended, the buffer ends exactly
full, `BufferOverflow` is latched, and the call returns `true` because
the whole request was ultimately copied. -/
theorem pushBackTx_evict (s : State) (d buf : List Nat)
    (hb : s.txBuffer = some buf) (hblen : buf.length = s.txBufferSize)
    (hcap32 : s.txBufferSize < 4294967296)
    (hpos : s.txPosition < s.txBufferSize)
    (hov : s.txBufferSize - s.txPosition - 1 < d.length)
    (hle : d.length ≤ s.txBufferSize - 1) :
    (pushBackTxBuffer s (some d) d.length).1 = true ∧
    (pushBackTxBuffer s (some d) d.length).2.errorCode = StreamExError.BufferOverflow ∧
    (pushBackTxBuffer s (some d) d.length).2.txPosition = s.txBufferSize - 1 ∧
    (pushBackTxBuffer s (some d) d.length).2.txBufferSize = s.txBufferSize ∧
    (pushBackTxBuffer s (some d) d.length).2.rxBuffer = s.rxBuffer ∧
    (pushBackTxBuffer s (some d) d.length).2.rxBufferSize = s.rxBufferSize ∧
    (pushBackTxBuffer s (some d) d.length).2.rxPosition = s.rxPosition ∧
    ∃ buf', (pushBackTxBuffer s (some d) d.length).2.txBuffer = some buf' ∧
      buf'.length = buf.length ∧
      buf'.take (s.txBufferSize - 1) =
        (buf.take s.txPosition).drop (d.length - (s.txBufferSize - s.txPosition - 1)) ++ d := by
  have hcap0 : ¬(s.txBufferSize = 0) := by omega
  have hgt : s.txBufferSize > s.txPosition := hpos
  have hyes : d.length > s.txBufferSize - s.txPosition - 1 := hov
  obtain ⟨buf1, hA1, hA2, hA3, hA4, hA5, hA6, hA7, hA8, hA9⟩ :=
    dropFrontTx_spec s (d.length - (s.txBufferSize - s.txPosition - 1)) buf hb
      (by omega)
  set need := d.length - (s.txBufferSize - s.txPosition - 1) with hneed
  have hneedpos : need ≤ s.txPosition := by omega
  have hpos1 : (dropFrontTx s need).txPosition = s.txPosition - need := hA3
  have hu1 : u32sub s.txBufferSize (s.txPosition - need) =
      s.txBufferSize - (s.txPosition - need) := u32sub_eq (by omega) hcap32
  have hu2 : u32sub (s.txBufferSize - (s.txPosition - need)) 1 =
      s.txBufferSize - (s.txPosition - need) - 1 := u32sub_eq (by omega) (by omega)
  have hcc : s.txBufferSize - (s.txPosition - need) - 1 = d.length := by omega
  have hmin : min d.length d.length = d.length := Nat.min_self d.length
  have hd0' : d.length ≠ 0 := by omega
  have hres : pushBackTxBuffer s (some d) d.length =
      (true, { dropFrontTx s need with errorCode := StreamExError.BufferOverflow, txBuffer := some ((memWrite buf1 (s.txPosition - need) d).set (s.txPosition - need + d.length) 0), txPosition := s.txPosition - need + d.length }) := by
    simp only [pushBackTxBuffer, hb, if_neg hcap0, if_pos hgt, if_pos hyes, ← hneed,
      hA3, hA6, hu1, hu2, hcc, hmin, if_pos hd0', hA1]
    simp [List.take_length]
  rw [hres]
  have hposfin : s.txPosition - need + d.length = s.txBufferSize - 1 := by omega
  refine ⟨rfl, rfl, ?_, ?_, ?_, ?_, ?_,
    (memWrite buf1 (s.txPosition - need) d).set (s.txPosition - need + d.length) 0,
    rfl, ?_, ?_⟩
  · simpa using hposfin
  · simpa using hA6
  · simpa using hA7
  · simpa using hA8
  · simpa using hA9
  · rw [List.length_set]
    rw [memWrite_length (by omega)]
    exact hA2
  · rw [← hposfin, take_set_of_le _ _ _ _ (le_refl _)]
    rw [memWrite_take (by omega)]
    rw [hA4]

end StreamEx

namespace StreamEx

/-- Behaviour of `pushBackTxBuffer` when the request exceeds
`capacity - 1`: the whole resident content is evicted, only the first
`capacity - 1` bytes of the request are copied, the buffer ends exactly
full, `BufferOverflow` is latched, and the call returns `false`. -/
theorem pushBackTx_toobig (s : State) (d buf : List Nat)
    (hb : s.txBuffer = some buf) (hblen : buf.length = s.txBufferSize)
    (hcap32 : s.txBufferSize < 4294967296)
    (hcap1 : 1 ≤ s.txBufferSize)
    (hposle : s.txPosition ≤ s.txBufferSize)
    (hbig : s.txBufferSize - 1 < d.length) :
    (pushBackTxBuffer s (some d) d.length).1 = false ∧
    (pushBackTxBuffer s (some d) d.length).2.errorCode = StreamExError.BufferOverflow ∧
    (pushBackTxBuffer s (some d) d.length).2.txPosition = s.txBufferSize - 1 ∧
    (pushBackTxBuffer s (some d) d.length).2.txBufferSize = s.txBufferSize ∧
    (pushBackTxBuffer s (some d) d.length).2.rxBuffer = s.rxBuffer ∧
    (pushBackTxBuffer s (some d) d.length).2.rxBufferSize = s.rxBufferSize ∧
    (pushBackTxBuffer s (some d) d.length).2.rxPosition = s.rxPosition ∧
    ∃ buf', (pushBackTxBuffer s (some d) d.length).2.txBuffer = some buf' ∧
      buf'.length = buf.length ∧
      buf'.take (s.txBufferSize - 1) = d.take (s.txBufferSize - 1) := by
  have hcap0 : ¬(s.txBufferSize = 0) := by omega
  have hfree : (if s.txBufferSize > s.txPosition
      then s.txBufferSize - s.txPosition - 1 else 0) =
      s.txBufferSize - s.txPosition - 1 := by
    split
    · rfl
    · omega
  have hyes : d.length > s.txBufferSize - s.txPosition - 1 := by omega
  obtain ⟨buf1, hA1, hA2, hA3, hA4, hA5, hA6, hA7, hA8, hA9⟩ :=
    dropFrontTx_spec s (d.length - (s.txBufferSize - s.txPosition - 1)) buf hb
      (by omega)
  set need := d.length - (s.txBufferSize - s.txPosition - 1) with hneed
  have hpos1 : s.txPosition - need = 0 := by omega
  rw [hpos1] at hA3 hA4
  have hu1 : u32sub s.txBufferSize 0 = s.txBufferSize :=
    u32sub_eq (Nat.zero_le _) hcap32
  have hu2 : u32sub s.txBufferSize 1 = s.txBufferSize - 1 :=
    u32sub_eq hcap1 hcap32
  have hmin : min d.length (s.txBufferSize - 1) = s.txBufferSize - 1 :=
    Nat.min_eq_right (by omega)
  have hbne : (s.txBufferSize - 1 == d.length) = false := by
    rw [beq_eq_false_iff_ne]
    omega
  by_cases hcc0 : s.txBufferSize - 1 = 0
  · have hcc0' : ¬(s.txBufferSize - 1 ≠ 0) := by omega
    have hres : pushBackTxBuffer s (some d) d.length =
        (false, { dropFrontTx s need with errorCode := StreamExError.BufferOverflow }) := by
      simp only [pushBackTxBuffer, hb, if_neg hcap0, hfree, if_pos hyes, ← hneed,
        hA3, hA6, hu1, hu2, hmin, if_neg hcc0', hbne]
    rw [hres]
    refine ⟨rfl, rfl, ?_, ?_, ?_, ?_, ?_, buf1, ?_, hA2, ?_⟩
    · simp only [hA3]
      omega
    · simpa using hA6
    · simpa using hA7
    · simpa using hA8
    · simpa using hA9
    · simpa using hA1
    · simp [hcc0]
  · have hcc0' : s.txBufferSize - 1 ≠ 0 := hcc0
    have hres : pushBackTxBuffer s (some d) d.length =
        (false, { dropFrontTx s need with errorCode := StreamExError.BufferOverflow, txBuffer := some ((memWrite buf1 0 (d.take (s.txBufferSize - 1))).set (s.txBufferSize - 1) 0), txPosition := s.txBufferSize - 1 }) := by
      simp only [pushBackTxBuffer, hb, if_neg hcap0, hfree, if_pos hyes, ← hneed,
        hA3, hA6, hu1, hu2, hmin, if_pos hcc0', hA1, hbne]
      simp
    rw [hres]
    refine ⟨rfl, rfl, rfl, ?_, ?_, ?_, ?_,
      (memWrite buf1 0 (d.take (s.txBufferSize - 1))).set (s.txBufferSize - 1) 0,
      rfl, ?_, ?_⟩
    · simpa using hA6
    · simpa using hA7
    · simpa using hA8
    · simpa using hA9
    · rw [List.length_set]
      rw [memWrite_length]
      · exact hA2
      · rw [List.length_take]
        omega
    · rw [take_set_of_le _ _ _ _ (le_refl _)]
      have hsrc : (d.take (s.txBufferSize - 1)).length = s.txBufferSize - 1 := by
        rw [List.length_take]
        omega
      have h3 := @memWrite_take buf1 (d.take (s.txBufferSize - 1)) 0 (by omega)
      rw [hsrc] at h3
      simpa using h3

end StreamEx

namespace StreamEx

/-- Full characterisation of `dropFrontRx` on a bound buffer whose used
length fits the storage: the position drops by `n` (to zero when `n`
covers it), the storage keeps its length, the valid content loses its
first `n` bytes, and all other fields are untouched. -/
theorem dropFrontRx_spec (s : State) (n : Nat) (buf : List Nat)
    (hb : s.rxBuffer = some buf) (hlen : s.rxPosition ≤ buf.length) :
    ∃ buf', (dropFrontRx s n).rxBuffer = some buf' ∧
      buf'.length = buf.length ∧
      (dropFrontRx s n).rxPosition = s.rxPosition - n ∧
      buf'.take (s.rxPosition - n) = (buf.take s.rxPosition).drop n ∧
      (dropFrontRx s n).errorCode = s.errorCode ∧
      (dropFrontRx s n).rxBufferSize = s.rxBufferSize ∧
      (dropFrontRx s n).txBuffer = s.txBuffer ∧
      (dropFrontRx s n).txBufferSize = s.txBufferSize ∧
      (dropFrontRx s n).txPosition = s.txPosition := by
  by_cases h0 : s.rxPosition = 0 ∨ n = 0
  · have he : dropFrontRx s n = s := by
      simp only [dropFrontRx, hb]
      rw [if_pos h0]
    rw [he]
    refine ⟨buf, hb, rfl, by rcases h0 with h | h <;> omega, ?_, rfl, rfl, rfl, rfl, rfl⟩
    rcases h0 with h | h <;> simp [h]
  · by_cases hle : s.rxPosition ≤ n
    · have he : dropFrontRx s n =
          { s with rxPosition := 0, rxBuffer := some (buf.set 0 0) } := by
        simp only [dropFrontRx, hb]
        rw [if_neg h0, if_pos hle]
      rw [he]
      refine ⟨buf.set 0 0, rfl, by simp, by simp; omega, ?_, rfl, rfl, rfl, rfl, rfl⟩
      have h1 : s.rxPosition - n = 0 := by omega
      have h2 : (buf.take s.rxPosition).length ≤ n := by
        rw [List.length_take]; omega
      rw [h1, List.drop_eq_nil_of_le h2]
      simp
    · have hlt : n < s.rxPosition := by omega
      have he : dropFrontRx s n = { s with rxPosition := s.rxPosition - n, rxBuffer := some ((memWrite buf 0 ((buf.drop n).take (s.rxPosition - n))).set (s.rxPosition - n) 0) } := by
        simp only [dropFrontRx, hb]
        rw [if_neg h0, if_neg hle]
      rw [he]
      set moved := (buf.drop n).take (s.rxPosition - n) with hmoved
      have hmlen : moved.length = s.rxPosition - n := by
        rw [hmoved, List.length_take, List.length_drop]
        omega
      have hwlen : (memWrite buf 0 moved).length = buf.length := by
        apply memWrite_length
        omega
      refine ⟨(memWrite buf 0 moved).set (s.rxPosition - n) 0, rfl,
        by simp [hwlen], rfl, ?_, rfl, rfl, rfl, rfl, rfl⟩
      rw [take_set_of_le _ _ _ _ (le_refl _)]
      have h3 : (memWrite buf 0 moved).take (0 + moved.length) = buf.take 0 ++ moved := by
        apply memWrite_take
        omega
      rw [hmlen] at h3
      simp only [Nat.zero_add, List.take_zero, List.nil_append] at h3
      rw [h3, hmoved, List.drop_take]

/-- `dropFrontRx` is the identity when the TX storage pointer is null. -/
theorem dropFrontRx_none (s : State) (n : Nat) (hb : s.rxBuffer = none) :
    dropFrontRx s n = s := by
  simp only [dropFrontRx, hb]

/-- Behaviour of `pushBackRxBuffer` when the request fits in the free
space `capacity - used - 1`: no eviction, no error, all bytes appended. -/
theorem pushBackRx_fits (s : State) (d buf : List Nat)
    (hb : s.rxBuffer = some buf) (hblen : buf.length = s.rxBufferSize)
    (hcap32 : s.rxBufferSize < 4294967296)
    (hpos : s.rxPosition < s.rxBufferSize)
    (hfit : d.length ≤ s.rxBufferSize - s.rxPosition - 1) :
    (pushBackRxBuffer s (some d) d.length).1 = true ∧
    (pushBackRxBuffer s (some d) d.length).2.errorCode = s.errorCode ∧
    (pushBackRxBuffer s (some d) d.length).2.rxPosition = s.rxPosition + d.length ∧
    (pushBackRxBuffer s (some d) d.length).2.rxBufferSize = s.rxBufferSize ∧
    (pushBackRxBuffer s (some d) d.length).2.txBuffer = s.txBuffer ∧
    (pushBackRxBuffer s (some d) d.length).2.txBufferSize = s.txBufferSize ∧
    (pushBackRxBuffer s (some d) d.length).2.txPosition = s.txPosition ∧
    ∃ buf', (pushBackRxBuffer s (some d) d.length).2.rxBuffer = some buf' ∧
      buf'.length = buf.length ∧
      buf'.take (s.rxPosition + d.length) = buf.take s.rxPosition ++ d := by
  have hcap0 : ¬(s.rxBufferSize = 0) := by omega
  have hgt : s.rxBufferSize > s.rxPosition := hpos
  have hnov : ¬(d.length > s.rxBufferSize - s.rxPosition - 1) := by omega
  have hu1 : u32sub s.rxBufferSize s.rxPosition = s.rxBufferSize - s.rxPosition :=
    u32sub_eq (Nat.le_of_lt hpos) hcap32
  have hu2 : u32sub (s.rxBufferSize - s.rxPosition) 1 = s.rxBufferSize - s.rxPosition - 1 :=
    u32sub_eq (by omega) (by omega)
  have hmin : min d.length (s.rxBufferSize - s.rxPosition - 1) = d.length :=
    Nat.min_eq_left hfit
  by_cases hd0 : d.length = 0
  · have hD : d = [] := List.eq_nil_of_length_eq_zero hd0
    subst hD
    have hres : pushBackRxBuffer s (some []) (List.length ([] : List Nat)) = (true, s) := by
      simp only [pushBackRxBuffer, hb, if_neg hcap0, if_pos hgt, hu1, hu2]
      simp
    simp only [List.length_nil] at hres ⊢
    rw [hres]
    exact ⟨rfl, rfl, by simp, rfl, rfl, rfl, rfl, buf, hb, rfl, by simp⟩
  · have hd0' : d.length ≠ 0 := hd0
    have hres : pushBackRxBuffer s (some d) d.length =
        (true, { s with rxBuffer := some ((memWrite buf s.rxPosition d).set (s.rxPosition + d.length) 0), rxPosition := s.rxPosition + d.length }) := by
      simp only [pushBackRxBuffer, hb, if_neg hcap0, if_pos hgt, if_neg hnov, hu1, hu2,
        hmin, if_pos hd0']
      simp [List.take_length]
    rw [hres]
    refine ⟨rfl, rfl, rfl, rfl, rfl, rfl, rfl,
      (memWrite buf s.rxPosition d).set (s.rxPosition + d.length) 0, rfl, ?_, ?_⟩
    · rw [List.length_set]
      apply memWrite_length
      omega
    · rw [take_set_of_le _ _ _ _ (le_refl _)]
      exact memWrite_take (by omega)

/-- Behaviour of `pushBackRxBuffer` when the request exceeds the free
space but is at most `capacity - 1`: exactly the deficit of oldest bytes
is evicted, all requested bytes are appended, the buffer ends exactly
full, `BufferOverflow` is latched, and the call returns `true` because
the whole request was ultimately copied. -/
theorem pushBackRx_evict (s : State) (d buf : List Nat)
    (hb : s.rxBuffer = some buf) (hblen : buf.length = s.rxBufferSize)
    (hcap32 : s.rxBufferSize < 4294967296)
    (hpos : s.rxPosition < s.rxBufferSize)
    (hov : s.rxBufferSize - s.rxPosition - 1 < d.length)
    (hle : d.length ≤ s.rxBufferSize - 1) :
    (pushBackRxBuffer s (some d) d.length).1 = true ∧
    (pushBackRxBuffer s (some d) d.length).2.errorCode = StreamExError.BufferOverflow ∧
    (pushBackRxBuffer s (some d) d.length).2.rxPosition = s.rxBufferSize - 1 ∧
    (pushBackRxBuffer s (some d) d.length).2.rxBufferSize = s.rxBufferSize ∧
    (pushBackRxBuffer s (some d) d.length).2.txBuffer = s.txBuffer ∧
    (pushBackRxBuffer s (some d) d.length).2.txBufferSize = s.txBufferSize ∧
    (pushBackRxBuffer s (some d) d.length).2.txPosition = s.txPosition ∧
    ∃ buf', (pushBackRxBuffer s (some d) d.length).2.rxBuffer = some buf' ∧
      buf'.length = buf.length ∧
      buf'.take (s.rxBufferSize - 1) =
        (buf.take s.rxPosition).drop (d.length - (s.rxBufferSize - s.rxPosition - 1)) ++ d := by
  have hcap0 : ¬(s.rxBufferSize = 0) := by omega
  have hgt : s.rxBufferSize > s.rxPosition := hpos
  have hyes : d.length > s.rxBufferSize - s.rxPosition - 1 := hov
  obtain ⟨buf1, hA1, hA2, hA3, hA4, hA5, hA6, hA7, hA8, hA9⟩ :=
    dropFrontRx_spec s (d.length - (s.rxBufferSize - s.rxPosition - 1)) buf hb
      (by omega)
  set need := d.length - (s.rxBufferSize - s.rxPosition - 1) with hneed
  have hneedpos : need ≤ s.rxPosition := by omega
  have hpos1 : (dropFrontRx s need).rxPosition = s.rxPosition - need := hA3
  have hu1 : u32sub s.rxBufferSize (s.rxPosition - need) =
      s.rxBufferSize - (s.rxPosition - need) := u32sub_eq (by omega) hcap32
  have hu2 : u32sub (s.rxBufferSize - (s.rxPosition - need)) 1 =
      s.rxBufferSize - (s.rxPosition - need) - 1 := u32sub_eq (by omega) (by omega)
  have hcc : s.rxBufferSize - (s.rxPosition - need) - 1 = d.length := by omega
  have hmin : min d.length d.length = d.length := Nat.min_self d.length
  have hd0' : d.length ≠ 0 := by omega
  have hres : pushBackRxBuffer s (some d) d.length =
      (true, { dropFrontRx s need with errorCode := StreamExError.BufferOverflow, rxBuffer := some ((memWrite buf1 (s.rxPosition - need) d).set (s.rxPosition - need + d.length) 0), rxPosition := s.rxPosition - need + d.length }) := by
    simp only [pushBackRxBuffer, hb, if_neg hcap0, if_pos hgt, if_pos hyes, ← hneed,
      hA3, hA6, hu1, hu2, hcc, hmin, if_pos hd0', hA1]
    simp [List.take_length]
  rw [hres]
  have hposfin : s.rxPosition - need + d.length = s.rxBufferSize - 1 := by omega
  refine ⟨rfl, rfl, ?_, ?_, ?_, ?_, ?_,
    (memWrite buf1 (s.rxPosition - need) d).set (s.rxPosition - need + d.length) 0,
    rfl, ?_, ?_⟩
  · simpa using hposfin
  · simpa using hA6
  · simpa using hA7
  · simpa using hA8
  · simpa using hA9
  · rw [List.length_set]
    rw [memWrite_length (by omega)]
    exact hA2
  · rw [← hposfin, take_set_of_le _ _ _ _ (le_refl _)]
    rw [memWrite_take (by omega)]
    rw [hA4]

/-- Behaviour of `pushBackRxBuffer` when the request exceeds
`capacity - 1`: the whole resident content is evicted, only the first
`capacity - 1` bytes of the request are copied, the buffer ends exactly
full, `BufferOverflow` is latched, and the call returns `false`. -/
theorem pushBackRx_toobig (s : State) (d buf : List Nat)
    (hb : s.rxBuffer = some buf) (hblen : buf.length = s.rxBufferSize)
    (hcap32 : s.rxBufferSize < 4294967296)
    (hcap1 : 1 ≤ s.rxBufferSize)
    (hposle : s.rxPosition ≤ s.rxBufferSize)
    (hbig : s.rxBufferSize - 1 < d.length) :
    (pushBackRxBuffer s (some d) d.length).1 = false ∧
    (pushBackRxBuffer s (some d) d.length).2.errorCode = StreamExError.BufferOverflow ∧
    (pushBackRxBuffer s (some d) d.length).2.rxPosition = s.rxBufferSize - 1 ∧
    (pushBackRxBuffer s (some d) d.length).2.rxBufferSize = s.rxBufferSize ∧
    (pushBackRxBuffer s (some d) d.length).2.txBuffer = s.txBuffer ∧
    (pushBackRxBuffer s (some d) d.length).2.txBufferSize = s.txBufferSize ∧
    (pushBackRxBuffer s (some d) d.length).2.txPosition = s.txPosition ∧
    ∃ buf', (pushBackRxBuffer s (some d) d.length).2.rxBuffer = some buf' ∧
      buf'.length = buf.length ∧
      buf'.take (s.rxBufferSize - 1) = d.take (s.rxBufferSize - 1) := by
  have hcap0 : ¬(s.rxBufferSize = 0) := by omega
  have hfree : (if s.rxBufferSize > s.rxPosition
      then s.rxBufferSize - s.rxPosition - 1 else 0) =
      s.rxBufferSize - s.rxPosition - 1 := by
    split
    · rfl
    · omega
  have hyes : d.length > s.rxBufferSize - s.rxPosition - 1 := by omega
  obtain ⟨buf1, hA1, hA2, hA3, hA4, hA5, hA6, hA7, hA8, hA9⟩ :=
    dropFrontRx_spec s (d.length - (s.rxBufferSize - s.rxPosition - 1)) buf hb
      (by omega)
  set need := d.length - (s.rxBufferSize - s.rxPosition - 1) with hneed
  have hpos1 : s.rxPosition - need = 0 := by omega
  rw [hpos1] at hA3 hA4
  have hu1 : u32sub s.rxBufferSize 0 = s.rxBufferSize :=
    u32sub_eq (Nat.zero_le _) hcap32
  have hu2 : u32sub s.rxBufferSize 1 = s.rxBufferSize - 1 :=
    u32sub_eq hcap1 hcap32
  have hmin : min d.length (s.rxBufferSize - 1) = s.rxBufferSize - 1 :=
    Nat.min_eq_right (by omega)
  have hbne : (s.rxBufferSize - 1 == d.length) = false := by
    rw [beq_eq_false_iff_ne]
    omega
  by_cases hcc0 : s.rxBufferSize - 1 = 0
  · have hcc0' : ¬(s.rxBufferSize - 1 ≠ 0) := by omega
    have hres : pushBackRxBuffer s (some d) d.length =
        (false, { dropFrontRx s need with errorCode := StreamExError.BufferOverflow }) := by
      simp only [pushBackRxBuffer, hb, if_neg hcap0, hfree, if_pos hyes, ← hneed,
        hA3, hA6, hu1, hu2, hmin, if_neg hcc0', hbne]
    rw [hres]
    refine ⟨rfl, rfl, ?_, ?_, ?_, ?_, ?_, buf1, ?_, hA2, ?_⟩
    · simp only [hA3]
      omega
    · simpa using hA6
    · simpa using hA7
    · simpa using hA8
    · simpa using hA9
    · simpa using hA1
    · simp [hcc0]
  · have hcc0' : s.rxBufferSize - 1 ≠ 0 := hcc0
    have hres : pushBackRxBuffer s (some d) d.length =
        (false, { dropFrontRx s need with errorCode := StreamExError.BufferOverflow, rxBuffer := some ((memWrite buf1 0 (d.take (s.rxBufferSize - 1))).set (s.rxBufferSize - 1) 0), rxPosition := s.rxBufferSize - 1 }) := by
      simp only [pushBackRxBuffer, hb, if_neg hcap0, hfree, if_pos hyes, ← hneed,
        hA3, hA6, hu1, hu2, hmin, if_pos hcc0', hA1, hbne]
      simp
    rw [hres]
    refine ⟨rfl, rfl, rfl, ?_, ?_, ?_, ?_,
      (memWrite buf1 0 (d.take (s.rxBufferSize - 1))).set (s.rxBufferSize - 1) 0,
      rfl, ?_, ?_⟩
    · simpa using hA6
    · simpa using hA7
    · simpa using hA8
    · simpa using hA9
    · rw [List.length_set]
      rw [memWrite_length]
      · exact hA2
      · rw [List.length_take]
        omega
    · rw [take_set_of_le _ _ _ _ (le_refl _)]
      have hsrc : (d.take (s.rxBufferSize - 1)).length = s.rxBufferSize - 1 := by
        rw [List.length_take]
        omega
      have h3 := @memWrite_take buf1 (d.take (s.rxBufferSize - 1)) 0 (by omega)
      rw [hsrc] at h3
      simpa using h3

end StreamEx

namespace StreamEx

/-- Concrete TX state for claim C2: capacity 4, three resident bytes, so
the free space is 0. -/
def c2sTx : State :=
  (pushBackTxBuffer (construct (some [0, 0, 0, 0]) 4 none 0) (some [1, 2, 3]) 3).2

/-- Concrete RX state for claim C2: capacity 3, two resident bytes. -/
def c2sRx : State :=
  (pushBackRxBuffer (construct none 0 (some [0, 0, 0]) 3) (some [7, 8]) 2).2

/-- C2, counterexample to the claim as stated: appending 1 byte to a full
capacity-4 TX buffer (free space 0 < 1 ≤ 3 = C-1) does evict the deficit,
latch `BufferOverflow` and fill the buffer, but the call returns `true`,
not `false` as claimed: after eviction the entire request was copied. -/
theorem C2_counterexample :
    c2sTx.txBufferSize = 4 ∧ c2sTx.txPosition = 3 ∧
    (pushBackTxBuffer c2sTx (some [9]) 1).1 = true ∧
    (pushBackTxBuffer c2sTx (some [9]) 1).2.errorCode = StreamExError.BufferOverflow ∧
    (pushBackTxBuffer c2sTx (some [9]) 1).2.txPosition = 3 ∧
    txContent (pushBackTxBuffer c2sTx (some [9]) 1).2 = [2, 3, 9] := by
  decide

/-- C2 (amended): for every bound buffer with capacity C and every append
of n bytes with n ≤ C-1 and free space f = C - used_length - 1 < n,
pushBackTxBuffer/pushBackRxBuffer evicts exactly n - f oldest bytes from
the front (never more, never less), then appends all n bytes, leaving the
buffer exactly full (used_length = C-1) and latching BufferOverflow — and
returns `true` (not `false`): the entire request was ultimately copied. -/
theorem C2_sliding_append
    (s : State) (d buf : List Nat)
    (hb : s.txBuffer = some buf) (hblen : buf.length = s.txBufferSize)
    (hcap32 : s.txBufferSize < 4294967296)
    (hpos : s.txPosition < s.txBufferSize)
    (hfree : s.txBufferSize - s.txPosition - 1 < d.length)
    (hle : d.length ≤ s.txBufferSize - 1)
    (t : State) (e bufR : List Nat)
    (hbR : t.rxBuffer = some bufR) (hblenR : bufR.length = t.rxBufferSize)
    (hcap32R : t.rxBufferSize < 4294967296)
    (hposR : t.rxPosition < t.rxBufferSize)
    (hfreeR : t.rxBufferSize - t.rxPosition - 1 < e.length)
    (hleR : e.length ≤ t.rxBufferSize - 1) :
    ((pushBackTxBuffer s (some d) d.length).1 = true ∧
     (pushBackTxBuffer s (some d) d.length).2.errorCode = StreamExError.BufferOverflow ∧
     (pushBackTxBuffer s (some d) d.length).2.txPosition = s.txBufferSize - 1 ∧
     txContent (pushBackTxBuffer s (some d) d.length).2 =
       (txContent s).drop (d.length - (s.txBufferSize - s.txPosition - 1)) ++ d) ∧
    ((pushBackRxBuffer t (some e) e.length).1 = true ∧
     (pushBackRxBuffer t (some e) e.length).2.errorCode = StreamExError.BufferOverflow ∧
     (pushBackRxBuffer t (some e) e.length).2.rxPosition = t.rxBufferSize - 1 ∧
     rxContent (pushBackRxBuffer t (some e) e.length).2 =
       (rxContent t).drop (e.length - (t.rxBufferSize - t.rxPosition - 1)) ++ e) := by
  constructor
  · obtain ⟨h1, h2, h3, h4, h5, h6, h7, buf', hbuf', hlen', htake'⟩ :=
      pushBackTx_evict s d buf hb hblen hcap32 hpos hfree hle
    refine ⟨h1, h2, h3, ?_⟩
    have hcs : txContent s = buf.take s.txPosition := by
      simp [txContent, hb]
    have hcs' : txContent (pushBackTxBuffer s (some d) d.length).2 =
        buf'.take (s.txBufferSize - 1) := by
      simp [txContent, hbuf', h3]
    rw [hcs, hcs', htake']
  · obtain ⟨h1, h2, h3, h4, h5, h6, h7, buf', hbuf', hlen', htake'⟩ :=
      pushBackRx_evict t e bufR hbR hblenR hcap32R hposR hfreeR hleR
    refine ⟨h1, h2, h3, ?_⟩
    have hcs : rxContent t = bufR.take t.rxPosition := by
      simp [rxContent, hbR]
    have hcs' : rxContent (pushBackRxBuffer t (some e) e.length).2 =
        buf'.take (t.rxBufferSize - 1) := by
      simp [rxContent, hbuf', h3]
    rw [hcs, hcs', htake']

/-- C2, witness: the amended theorem applied to the concrete full TX
buffer of capacity 4 and the concrete RX buffer of capacity 3. -/
theorem C2_witness :
    ((pushBackTxBuffer c2sTx (some [9]) 1).1 = true ∧
     (pushBackTxBuffer c2sTx (some [9]) 1).2.errorCode = StreamExError.BufferOverflow ∧
     (pushBackTxBuffer c2sTx (some [9]) 1).2.txPosition = c2sTx.txBufferSize - 1 ∧
     txContent (pushBackTxBuffer c2sTx (some [9]) 1).2 =
       (txContent c2sTx).drop (1 - (c2sTx.txBufferSize - c2sTx.txPosition - 1)) ++ [9]) ∧
    ((pushBackRxBuffer c2sRx (some [5, 6]) 2).1 = true ∧
     (pushBackRxBuffer c2sRx (some [5, 6]) 2).2.errorCode = StreamExError.BufferOverflow ∧
     (pushBackRxBuffer c2sRx (some [5, 6]) 2).2.rxPosition = c2sRx.rxBufferSize - 1 ∧
     rxContent (pushBackRxBuffer c2sRx (some [5, 6]) 2).2 =
       (rxContent c2sRx).drop (2 - (c2sRx.rxBufferSize - c2sRx.rxPosition - 1)) ++ [5, 6]) :=
  C2_sliding_append c2sTx [9] [1, 2, 3, 0] (by decide) (by decide) (by decide)
    (by decide) (by decide) (by decide)
    c2sRx [5, 6] [7, 8, 0] (by decide) (by decide) (by decide)
    (by decide) (by decide) (by decide)

/-- C3, counterexample to the claim as stated: pushing 5 bytes into an
empty capacity-4 TX buffer leaves the FIRST 3 bytes of the request in the
buffer, not the last 3 as claimed. -/
theorem C3_counterexample :
    txContent (pushBackTxBuffer (construct (some [0, 0, 0, 0]) 4 none 0)
      (some [10, 20, 30, 40, 50]) 5).2 = [10, 20, 30] ∧
    [10, 20, 30] ≠ List.drop 2 [10, 20, 30, 40, 50] := by
  decide

/-- C3 (amended): for every bound buffer with capacity C and every append
of n bytes with n > C-1, pushBackTxBuffer/pushBackRxBuffer leaves the
buffer holding exactly the FIRST C-1 bytes of the requested run (the
source copies from the start of `data`), used_length = C-1,
BufferOverflow is reported and the call returns false. -/
theorem C3_push_oversize_keeps_first
    (s : State) (d buf : List Nat)
    (hb : s.txBuffer = some buf) (hblen : buf.length = s.txBufferSize)
    (hcap32 : s.txBufferSize < 4294967296)
    (hcap1 : 1 ≤ s.txBufferSize)
    (hposle : s.txPosition ≤ s.txBufferSize)
    (hbig : s.txBufferSize - 1 < d.length)
    (t : State) (e bufR : List Nat)
    (hbR : t.rxBuffer = some bufR) (hblenR : bufR.length = t.rxBufferSize)
    (hcap32R : t.rxBufferSize < 4294967296)
    (hcap1R : 1 ≤ t.rxBufferSize)
    (hposleR : t.rxPosition ≤ t.rxBufferSize)
    (hbigR : t.rxBufferSize - 1 < e.length) :
    ((pushBackTxBuffer s (some d) d.length).1 = false ∧
     (pushBackTxBuffer s (some d) d.length).2.errorCode = StreamExError.BufferOverflow ∧
     (pushBackTxBuffer s (some d) d.length).2.txPosition = s.txBufferSize - 1 ∧
     txContent (pushBackTxBuffer s (some d) d.length).2 = d.take (s.txBufferSize - 1)) ∧
    ((pushBackRxBuffer t (some e) e.length).1 = false ∧
     (pushBackRxBuffer t (some e) e.length).2.errorCode = StreamExError.BufferOverflow ∧
     (pushBackRxBuffer t (some e) e.length).2.rxPosition = t.rxBufferSize - 1 ∧
     rxContent (pushBackRxBuffer t (some e) e.length).2 = e.take (t.rxBufferSize - 1)) := by
  constructor
  · obtain ⟨h1, h2, h3, h4, h5, h6, h7, buf', hbuf', hlen', htake'⟩ :=
      pushBackTx_toobig s d buf hb hblen hcap32 hcap1 hposle hbig
    refine ⟨h1, h2, h3, ?_⟩
    have hcs' : txContent (pushBackTxBuffer s (some d) d.length).2 =
        buf'.take (s.txBufferSize - 1) := by
      simp [txContent, hbuf', h3]
    rw [hcs', htake']
  · obtain ⟨h1, h2, h3, h4, h5, h6, h7, buf', hbuf', hlen', htake'⟩ :=
      pushBackRx_toobig t e bufR hbR hblenR hcap32R hcap1R hposleR hbigR
    refine ⟨h1, h2, h3, ?_⟩
    have hcs' : rxContent (pushBackRxBuffer t (some e) e.length).2 =
        buf'.take (t.rxBufferSize - 1) := by
      simp [rxContent, hbuf', h3]
    rw [hcs', htake']

/-- C3, witness: the amended theorem applied to an empty capacity-4 TX
buffer with a 5-byte request and a capacity-2 RX buffer with a 2-byte
request. -/
theorem C3_witness :
    ((pushBackTxBuffer (construct (some [0, 0, 0, 0]) 4 (some [0, 0]) 2)
        (some [10, 20, 30, 40, 50]) 5).1 = false ∧
     (pushBackTxBuffer (construct (some [0, 0, 0, 0]) 4 (some [0, 0]) 2)
        (some [10, 20, 30, 40, 50]) 5).2.errorCode = StreamExError.BufferOverflow ∧
     (pushBackTxBuffer (construct (some [0, 0, 0, 0]) 4 (some [0, 0]) 2)
        (some [10, 20, 30, 40, 50]) 5).2.txPosition =
       (construct (some [0, 0, 0, 0]) 4 (some [0, 0]) 2).txBufferSize - 1 ∧
     txContent (pushBackTxBuffer (construct (some [0, 0, 0, 0]) 4 (some [0, 0]) 2)
        (some [10, 20, 30, 40, 50]) 5).2 =
       [10, 20, 30, 40, 50].take ((construct (some [0, 0, 0, 0]) 4 (some [0, 0]) 2).txBufferSize - 1)) ∧
    ((pushBackRxBuffer (construct (some [0, 0, 0, 0]) 4 (some [0, 0]) 2)
        (some [44, 55]) 2).1 = false ∧
     (pushBackRxBuffer (construct (some [0, 0, 0, 0]) 4 (some [0, 0]) 2)
        (some [44, 55]) 2).2.errorCode = StreamExError.BufferOverflow ∧
     (pushBackRxBuffer (construct (some [0, 0, 0, 0]) 4 (some [0, 0]) 2)
        (some [44, 55]) 2).2.rxPosition =
       (construct (some [0, 0, 0, 0]) 4 (some [0, 0]) 2).rxBufferSize - 1 ∧
     rxContent (pushBackRxBuffer (construct (some [0, 0, 0, 0]) 4 (some [0, 0]) 2)
        (some [44, 55]) 2).2 =
       [44, 55].take ((construct (some [0, 0, 0, 0]) 4 (some [0, 0]) 2).rxBufferSize - 1)) :=
  C3_push_oversize_keeps_first
    (construct (some [0, 0, 0, 0]) 4 (some [0, 0]) 2) [10, 20, 30, 40, 50] [0, 0, 0, 0]
    (by decide) (by decide) (by decide) (by decide) (by decide) (by decide)
    (construct (some [0, 0, 0, 0]) 4 (some [0, 0]) 2) [44, 55] [0, 0]
    (by decide) (by decide) (by decide) (by decide) (by decide) (by decide)

end StreamEx

namespace StreamEx

/-- C6: appending x with len(x) ≤ C-1 to an empty bound TX buffer returns
true with the latched error unchanged (no overflow), and an immediately
following pop-all with maxSize ≥ len(x) copies out exactly the bytes of x
and leaves the buffer empty. -/
theorem C6_append_popAll_roundtrip
    (s : State) (d buf : List Nat) (maxSize : Nat)
    (hb : s.txBuffer = some buf) (hblen : buf.length = s.txBufferSize)
    (hcap32 : s.txBufferSize < 4294967296)
    (hcap1 : 1 ≤ s.txBufferSize)
    (hpos0 : s.txPosition = 0)
    (hfit : d.length ≤ s.txBufferSize - 1)
    (hmax : d.length ≤ maxSize) :
    (pushBackTxBuffer s (some d) d.length).1 = true ∧
    (pushBackTxBuffer s (some d) d.length).2.errorCode = s.errorCode ∧
    (popAllTxBuffer (pushBackTxBuffer s (some d) d.length).2 false maxSize).2.1 = d ∧
    (popAllTxBuffer (pushBackTxBuffer s (some d) d.length).2 false maxSize).2.2.txPosition = 0 := by
  have hpos : s.txPosition < s.txBufferSize := by omega
  have hfit' : d.length ≤ s.txBufferSize - s.txPosition - 1 := by omega
  obtain ⟨h1, h2, h3, h4, h5, h6, h7, buf', hbuf', hlen', htake'⟩ :=
    pushBackTx_fits s d buf hb hblen hcap32 hpos hfit'
  have hpos' : (pushBackTxBuffer s (some d) d.length).2.txPosition = d.length := by
    rw [h3, hpos0]
    omega
  have htake'' : buf'.take d.length = d := by
    rw [hpos0] at htake'
    simpa using htake'
  by_cases hms : maxSize = 0
  · have hd0 : d = [] := by
      have : d.length = 0 := by omega
      exact List.eq_nil_of_length_eq_zero this
    subst hd0
    have hres : popAllTxBuffer (pushBackTxBuffer s (some []) (List.length ([] : List Nat))).2 false maxSize =
        (false, [], { (pushBackTxBuffer s (some []) (List.length ([] : List Nat))).2 with
          errorCode := StreamExError.SizeZero }) := by
      simp [popAllTxBuffer, hms]
    simp only [List.length_nil] at hres h1 h2 hpos' ⊢
    rw [hres]
    exact ⟨h1, h2, rfl, by simpa using hpos'⟩
  · have hmin : min (pushBackTxBuffer s (some d) d.length).2.txPosition maxSize = d.length := by
      rw [hpos']
      exact Nat.min_eq_left hmax
    obtain ⟨buf'', hB1, hB2, hB3, hB4, hB5, hB6, hB7, hB8, hB9⟩ :=
      dropFrontTx_spec (pushBackTxBuffer s (some d) d.length).2 d.length buf' hbuf'
        (by rw [hpos']; omega)
    have hres : popAllTxBuffer (pushBackTxBuffer s (some d) d.length).2 false maxSize =
        (decide (d.length = maxSize ∨
            (dropFrontTx (pushBackTxBuffer s (some d) d.length).2 d.length).txPosition = 0),
          buf'.take d.length,
          dropFrontTx (pushBackTxBuffer s (some d) d.length).2 d.length) := by
      simp only [popAllTxBuffer, Bool.false_eq_true, if_false, if_neg hms, hmin, hbuf',
        Option.getD_some]
    rw [hres]
    refine ⟨h1, h2, htake'', ?_⟩
    rw [hB3, hpos']
    omega

/-- C6, witness: the roundtrip theorem applied to an empty capacity-4
buffer, the two-byte string [5, 6], and maxSize 7. -/
theorem C6_witness :
    (pushBackTxBuffer (construct (some [0, 0, 0, 0]) 4 none 0) (some [5, 6]) 2).1 = true ∧
    (pushBackTxBuffer (construct (some [0, 0, 0, 0]) 4 none 0) (some [5, 6]) 2).2.errorCode =
      (construct (some [0, 0, 0, 0]) 4 none 0).errorCode ∧
    (popAllTxBuffer (pushBackTxBuffer (construct (some [0, 0, 0, 0]) 4 none 0)
      (some [5, 6]) 2).2 false 7).2.1 = [5, 6] ∧
    (popAllTxBuffer (pushBackTxBuffer (construct (some [0, 0, 0, 0]) 4 none 0)
      (some [5, 6]) 2).2 false 7).2.2.txPosition = 0 :=
  C6_append_popAll_roundtrip (construct (some [0, 0, 0, 0]) 4 none 0) [5, 6] [0, 0, 0, 0] 7
    (by decide) (by decide) (by decide) (by decide) (by decide) (by decide) (by decide)

end StreamEx

namespace StreamEx

/-- C4: popping more than is available from a bound buffer clamps to the
used length, copies and removes exactly those bytes, latches
NotEnoughData, returns false and leaves the buffer empty; a null output
pointer latches NullData, a zero size latches SizeZero, and in both of
those cases the buffer state is otherwise untouched and false is
returned.  Stated for both popFrontTxBuffer and popFrontRxBuffer. -/
theorem C4_popFront_clamps_and_errors
    (s : State) (buf : List Nat) (ds : Nat)
    (hb : s.txBuffer = some buf) (hlen : s.txPosition ≤ buf.length)
    (hds : ds > s.txPosition)
    (t : State) (bufR : List Nat) (dsR : Nat)
    (hbR : t.rxBuffer = some bufR) (hlenR : t.rxPosition ≤ bufR.length)
    (hdsR : dsR > t.rxPosition)
    (u : State) (dsz : Nat) :
    ((popFrontTxBuffer s false ds).1 = false ∧
     (popFrontTxBuffer s false ds).2.1 = txContent s ∧
     (popFrontTxBuffer s false ds).2.2.errorCode = StreamExError.NotEnoughData ∧
     (popFrontTxBuffer s false ds).2.2.txPosition = 0) ∧
    ((popFrontRxBuffer t false dsR).1 = false ∧
     (popFrontRxBuffer t false dsR).2.1 = rxContent t ∧
     (popFrontRxBuffer t false dsR).2.2.errorCode = StreamExError.NotEnoughData ∧
     (popFrontRxBuffer t false dsR).2.2.rxPosition = 0) ∧
    popFrontTxBuffer u true dsz = (false, [], { u with errorCode := StreamExError.NullData }) ∧
    popFrontRxBuffer u true dsz = (false, [], { u with errorCode := StreamExError.NullData }) ∧
    popFrontTxBuffer u false 0 = (false, [], { u with errorCode := StreamExError.SizeZero }) ∧
    popFrontRxBuffer u false 0 = (false, [], { u with errorCode := StreamExError.SizeZero }) := by
  have hds0 : ¬(ds = 0) := by omega
  have hdsR0 : ¬(dsR = 0) := by omega
  refine ⟨?_, ?_, rfl, rfl, rfl, rfl⟩
  · by_cases hp0 : s.txPosition = 0
    · have hres : popFrontTxBuffer s false ds =
          (false, [], { s with errorCode := StreamExError.NotEnoughData }) := by
        simp only [popFrontTxBuffer, Bool.false_eq_true, if_false, if_neg hds0,
          if_pos hds, if_pos hp0]
      rw [hres]
      exact ⟨rfl, by simp [txContent, hp0], rfl, by simp [hp0]⟩
    · obtain ⟨buf', hA1, hA2, hA3, hA4, hA5, hA6, hA7, hA8, hA9⟩ :=
        dropFrontTx_spec { s with errorCode := StreamExError.NotEnoughData }
          s.txPosition buf hb hlen
      have hres : popFrontTxBuffer s false ds =
          (decide ((dropFrontTx { s with errorCode := StreamExError.NotEnoughData }
              s.txPosition).errorCode ≠ StreamExError.NotEnoughData),
           buf.take s.txPosition,
           dropFrontTx { s with errorCode := StreamExError.NotEnoughData } s.txPosition) := by
        simp only [popFrontTxBuffer, Bool.false_eq_true, if_false, if_neg hds0,
          if_pos hds, if_neg hp0, hb, Option.getD_some]
      rw [hres]
      refine ⟨?_, by simp [txContent, hb], ?_, ?_⟩
      · rw [hA5]
        simp
      · rw [hA5]
      · rw [hA3]
        simp
  · by_cases hp0 : t.rxPosition = 0
    · have hres : popFrontRxBuffer t false dsR =
          (false, [], { t with errorCode := StreamExError.NotEnoughData }) := by
        simp only [popFrontRxBuffer, Bool.false_eq_true, if_false, if_neg hdsR0,
          if_pos hdsR, if_pos hp0]
      rw [hres]
      exact ⟨rfl, by simp [rxContent, hp0], rfl, by simp [hp0]⟩
    · obtain ⟨buf', hA1, hA2, hA3, hA4, hA5, hA6, hA7, hA8, hA9⟩ :=
        dropFrontRx_spec { t with errorCode := StreamExError.NotEnoughData }
          t.rxPosition bufR hbR hlenR
      have hres : popFrontRxBuffer t false dsR =
          (decide ((dropFrontRx { t with errorCode := StreamExError.NotEnoughData }
              t.rxPosition).errorCode ≠ StreamExError.NotEnoughData),
           bufR.take t.rxPosition,
           dropFrontRx { t with errorCode := StreamExError.NotEnoughData } t.rxPosition) := by
        simp only [popFrontRxBuffer, Bool.false_eq_true, if_false, if_neg hdsR0,
          if_pos hdsR, if_neg hp0, hbR, Option.getD_some]
      rw [hres]
      refine ⟨?_, by simp [rxContent, hbR], ?_, ?_⟩
      · rw [hA5]
        simp
      · rw [hA5]
      · rw [hA3]
        simp

/-- C4, witness: a capacity-5 TX buffer holding three bytes popped with
size 9, a capacity-3 RX buffer holding one byte popped with size 2, and
the null-pointer/zero-size error paths on the same state. -/
theorem C4_witness :
    ((popFrontTxBuffer (pushBackTxBuffer (construct (some [0, 0, 0, 0, 0]) 5
        (some [0, 0, 0]) 3) (some [1, 2, 3]) 3).2 false 9).1 = false ∧
     (popFrontTxBuffer (pushBackTxBuffer (construct (some [0, 0, 0, 0, 0]) 5
        (some [0, 0, 0]) 3) (some [1, 2, 3]) 3).2 false 9).2.1 =
       txContent (pushBackTxBuffer (construct (some [0, 0, 0, 0, 0]) 5
        (some [0, 0, 0]) 3) (some [1, 2, 3]) 3).2 ∧
     (popFrontTxBuffer (pushBackTxBuffer (construct (some [0, 0, 0, 0, 0]) 5
        (some [0, 0, 0]) 3) (some [1, 2, 3]) 3).2 false 9).2.2.errorCode =
       StreamExError.NotEnoughData ∧
     (popFrontTxBuffer (pushBackTxBuffer (construct (some [0, 0, 0, 0, 0]) 5
        (some [0, 0, 0]) 3) (some [1, 2, 3]) 3).2 false 9).2.2.txPosition = 0) ∧
    ((popFrontRxBuffer (pushBackRxBuffer (construct (some [0, 0, 0, 0, 0]) 5
        (some [0, 0, 0]) 3) (some [4]) 1).2 false 2).1 = false ∧
     (popFrontRxBuffer (pushBackRxBuffer (construct (some [0, 0, 0, 0, 0]) 5
        (some [0, 0, 0]) 3) (some [4]) 1).2 false 2).2.1 =
       rxContent (pushBackRxBuffer (construct (some [0, 0, 0, 0, 0]) 5
        (some [0, 0, 0]) 3) (some [4]) 1).2 ∧
     (popFrontRxBuffer (pushBackRxBuffer (construct (some [0, 0, 0, 0, 0]) 5
        (some [0, 0, 0]) 3) (some [4]) 1).2 false 2).2.2.errorCode =
       StreamExError.NotEnoughData ∧
     (popFrontRxBuffer (pushBackRxBuffer (construct (some [0, 0, 0, 0, 0]) 5
        (some [0, 0, 0]) 3) (some [4]) 1).2 false 2).2.2.rxPosition = 0) ∧
    popFrontTxBuffer (construct (some [0, 0]) 2 none 0) true 4 =
      (false, [], { construct (some [0, 0]) 2 none 0 with
        errorCode := StreamExError.NullData }) ∧
    popFrontRxBuffer (construct (some [0, 0]) 2 none 0) true 4 =
      (false, [], { construct (some [0, 0]) 2 none 0 with
        errorCode := StreamExError.NullData }) ∧
    popFrontTxBuffer (construct (some [0, 0]) 2 none 0) false 0 =
      (false, [], { construct (some [0, 0]) 2 none 0 with
        errorCode := StreamExError.SizeZero }) ∧
    popFrontRxBuffer (construct (some [0, 0]) 2 none 0) false 0 =
      (false, [], { construct (some [0, 0]) 2 none 0 with
        errorCode := StreamExError.SizeZero }) :=
  C4_popFront_clamps_and_errors
    (pushBackTxBuffer (construct (some [0, 0, 0, 0, 0]) 5 (some [0, 0, 0]) 3)
      (some [1, 2, 3]) 3).2 [1, 2, 3, 0, 0] 9 (by decide) (by decide) (by decide)
    (pushBackRxBuffer (construct (some [0, 0, 0, 0, 0]) 5 (some [0, 0, 0]) 3)
      (some [4]) 1).2 [4, 0, 0] 2 (by decide) (by decide) (by decide)
    (construct (some [0, 0]) 2 none 0) 4

end StreamEx

namespace StreamEx

/-- C5, counterexample to the claim as stated: overwriting a capacity-1
buffer with the single byte 65 (size = capacity) succeeds, but the stored
content is [0], not the given byte: the NUL terminator at index
min(size, capacity-1) = 0 overwrites the data byte, so "stores exactly
the given bytes" fails when size = capacity. -/
theorem C5_counterexample :
    (writeTxBuffer (construct (some [7]) 1 none 0) [65] 1).1 = true ∧
    txContent (writeTxBuffer (construct (some [7]) 1 none 0) [65] 1).2 = [0] ∧
    txContent (writeTxBuffer (construct (some [7]) 1 none 0) [65] 1).2 ≠ [65] := by
  decide

/-- C5 (amended): writeTxBuffer/writeRxBuffer with size > capacity latches
BufferOverflow, returns false and leaves the state otherwise unchanged;
with size ≤ capacity it returns true, sets used_length = size and writes
a NUL terminator at index min(size, capacity-1).  The given bytes are
stored intact when size < capacity; when size = capacity the terminator
replaces the last byte, so the content is the first size-1 bytes followed
by NUL. -/
theorem C5_overwrite_bounds
    (sF : State) (dataF : List Nat) (dsF : Nat) (hF : dsF > sF.txBufferSize)
    (tF : State) (dataFR : List Nat) (dsFR : Nat) (hFR : dsFR > tF.rxBufferSize)
    (s : State) (data buf : List Nat)
    (hb : s.txBuffer = some buf) (hblen : buf.length = s.txBufferSize)
    (hcap1 : 1 ≤ s.txBufferSize)
    (hfitc : data.length ≤ s.txBufferSize)
    (t : State) (dataR bufR : List Nat)
    (hbR : t.rxBuffer = some bufR) (hblenR : bufR.length = t.rxBufferSize)
    (hcap1R : 1 ≤ t.rxBufferSize)
    (hfitcR : dataR.length ≤ t.rxBufferSize) :
    writeTxBuffer sF dataF dsF =
      (false, { sF with errorCode := StreamExError.BufferOverflow }) ∧
    writeRxBuffer tF dataFR dsFR =
      (false, { tF with errorCode := StreamExError.BufferOverflow }) ∧
    ((writeTxBuffer s data data.length).1 = true ∧
     (writeTxBuffer s data data.length).2.txPosition = data.length ∧
     (data.length < s.txBufferSize → txContent (writeTxBuffer s data data.length).2 = data) ∧
     (data.length = s.txBufferSize →
       txContent (writeTxBuffer s data data.length).2 =
         data.take (s.txBufferSize - 1) ++ [0]) ∧
     ∃ buf', (writeTxBuffer s data data.length).2.txBuffer = some buf' ∧
       buf'[min data.length (s.txBufferSize - 1)]? = some 0) ∧
    ((writeRxBuffer t dataR dataR.length).1 = true ∧
     (writeRxBuffer t dataR dataR.length).2.rxPosition = dataR.length ∧
     (dataR.length < t.rxBufferSize → rxContent (writeRxBuffer t dataR dataR.length).2 = dataR) ∧
     (dataR.length = t.rxBufferSize →
       rxContent (writeRxBuffer t dataR dataR.length).2 =
         dataR.take (t.rxBufferSize - 1) ++ [0]) ∧
     ∃ buf', (writeRxBuffer t dataR dataR.length).2.rxBuffer = some buf' ∧
       buf'[min dataR.length (t.rxBufferSize - 1)]? = some 0) := by
  refine ⟨by simp [writeTxBuffer, hF], by simp [writeRxBuffer, hFR], ?_, ?_⟩
  · have hnF : ¬(data.length > s.txBufferSize) := by omega
    have hc0 : s.txBufferSize ≠ 0 := by omega
    have hres : writeTxBuffer s data data.length =
        (true, { s with
          txBuffer := some ((memWrite buf 0 data).set
            (if data.length < s.txBufferSize then data.length else s.txBufferSize - 1) 0),
          txPosition := data.length }) := by
      simp only [writeTxBuffer, if_neg hnF, hb, Option.map_some, List.take_length,
        if_pos hc0]
      simp [List.take_length]
    have hW : (memWrite buf 0 data).length = buf.length :=
      memWrite_length (by omega)
    have hterm : (if data.length < s.txBufferSize then data.length
        else s.txBufferSize - 1) = min data.length (s.txBufferSize - 1) := by
      split <;> omega
    rw [hres]
    refine ⟨rfl, rfl, ?_, ?_, _, rfl, ?_⟩
    · intro hlt
      have : txContent { s with
          txBuffer := some ((memWrite buf 0 data).set
            (if data.length < s.txBufferSize then data.length else s.txBufferSize - 1) 0),
          txPosition := data.length } =
          ((memWrite buf 0 data).set data.length 0).take data.length := by
        simp [txContent, if_pos hlt]
      rw [this, take_set_of_le _ _ _ _ (le_refl _)]
      have h3 := @memWrite_take buf data 0 (by omega)
      simpa using h3
    · intro heq
      have hterm2 : (if data.length < s.txBufferSize then data.length
          else s.txBufferSize - 1) = s.txBufferSize - 1 := by
        split <;> omega
      have hWd : memWrite buf 0 data = data := by
        unfold memWrite
        simp
        omega
      have hcc : txContent { s with
          txBuffer := some ((memWrite buf 0 data).set
            (if data.length < s.txBufferSize then data.length else s.txBufferSize - 1) 0),
          txPosition := data.length } =
          ((data.set (s.txBufferSize - 1) 0)).take data.length := by
        simp [txContent, hterm2, hWd]
      rw [hcc]
      have hset : data.set (s.txBufferSize - 1) 0 =
          data.take (s.txBufferSize - 1) ++ 0 :: data.drop (s.txBufferSize - 1 + 1) := by
        rw [List.set_eq_take_append_cons_drop]
        rw [if_pos (by omega)]
      rw [hset]
      have hdrop2 : data.drop (s.txBufferSize - 1 + 1) = [] :=
        List.drop_eq_nil_of_le (by omega)
      rw [hdrop2]
      apply List.take_of_length_le
      simp [List.length_take]
      omega
    · rw [hterm]
      apply List.getElem?_set_self
      rw [hW]
      omega
  · have hnF : ¬(dataR.length > t.rxBufferSize) := by omega
    have hc0 : t.rxBufferSize ≠ 0 := by omega
    have hres : writeRxBuffer t dataR dataR.length =
        (true, { t with
          rxBuffer := some ((memWrite bufR 0 dataR).set
            (if dataR.length < t.rxBufferSize then dataR.length else t.rxBufferSize - 1) 0),
          rxPosition := dataR.length }) := by
      simp only [writeRxBuffer, if_neg hnF, hbR, Option.map_some, List.take_length,
        if_pos hc0]
      simp [List.take_length]
    have hW : (memWrite bufR 0 dataR).length = bufR.length :=
      memWrite_length (by omega)
    have hterm : (if dataR.length < t.rxBufferSize then dataR.length
        else t.rxBufferSize - 1) = min dataR.length (t.rxBufferSize - 1) := by
      split <;> omega
    rw [hres]
    refine ⟨rfl, rfl, ?_, ?_, _, rfl, ?_⟩
    · intro hlt
      have hcc : rxContent { t with
          rxBuffer := some ((memWrite bufR 0 dataR).set
            (if dataR.length < t.rxBufferSize then dataR.length else t.rxBufferSize - 1) 0),
          rxPosition := dataR.length } =
          ((memWrite bufR 0 dataR).set dataR.length 0).take dataR.length := by
        simp [rxContent, if_pos hlt]
      rw [hcc, take_set_of_le _ _ _ _ (le_refl _)]
      have h3 := @memWrite_take bufR dataR 0 (by omega)
      simpa using h3
    · intro heq
      have hterm2 : (if dataR.length < t.rxBufferSize then dataR.length
          else t.rxBufferSize - 1) = t.rxBufferSize - 1 := by
        split <;> omega
      have hWd : memWrite bufR 0 dataR = dataR := by
        unfold memWrite
        simp
        omega
      have hcc : rxContent { t with
          rxBuffer := some ((memWrite bufR 0 dataR).set
            (if dataR.length < t.rxBufferSize then dataR.length else t.rxBufferSize - 1) 0),
          rxPosition := dataR.length } =
          ((dataR.set (t.rxBufferSize - 1) 0)).take dataR.length := by
        simp [rxContent, hterm2, hWd]
      rw [hcc]
      have hset : dataR.set (t.rxBufferSize - 1) 0 =
          dataR.take (t.rxBufferSize - 1) ++ 0 :: dataR.drop (t.rxBufferSize - 1 + 1) := by
        rw [List.set_eq_take_append_cons_drop]
        rw [if_pos (by omega)]
      rw [hset]
      have hdrop2 : dataR.drop (t.rxBufferSize - 1 + 1) = [] :=
        List.drop_eq_nil_of_le (by omega)
      rw [hdrop2]
      apply List.take_of_length_le
      simp [List.length_take]
      omega
    · rw [hterm]
      apply List.getElem?_set_self
      rw [hW]
      omega

end StreamEx

namespace StreamEx

/-- C5, witness: the amended overwrite theorem applied to concrete
buffers: an oversize TX overwrite (3 > 2), an oversize RX overwrite on an
unbound RX buffer (1 > 0), a fitting TX overwrite (2 < 3) and an exactly
full RX overwrite (2 = 2). -/
theorem C5_witness :
    writeTxBuffer (construct (some [0, 0]) 2 none 0) [1, 2, 3] 3 =
      (false, { construct (some [0, 0]) 2 none 0 with
        errorCode := StreamExError.BufferOverflow }) ∧
    (writeTxBuffer (construct (some [0, 0, 0]) 3 none 0) [8, 9]
      (List.length [8, 9])).1 = true ∧
    txContent (writeTxBuffer (construct (some [0, 0, 0]) 3 none 0) [8, 9]
      (List.length [8, 9])).2 = [8, 9] := by
  have h := C5_overwrite_bounds
    (construct (some [0, 0]) 2 none 0) [1, 2, 3] 3 (by decide)
    (construct (some [0, 0]) 2 none 0) [1] 1 (by decide)
    (construct (some [0, 0, 0]) 3 none 0) [8, 9] [0, 0, 0]
    (by decide) (by decide) (by decide) (by decide)
    (construct none 0 (some [0, 0]) 2) [4, 5] [0, 0]
    (by decide) (by decide) (by decide) (by decide)
  exact ⟨h.1, h.2.2.1.1, h.2.2.1.2.2.1 (by decide)⟩

/-- C10: appending non-null data of any size to a buffer whose storage
pointer is null or whose declared size is 0 fails with BufferOverflow
(not NullData), returns false, and leaves the used length at 0 and the
storage untouched. -/
theorem C10_push_unbound_overflow
    (s : State) (d : List Nat) (n : Nat)
    (hun : s.txBuffer = none ∨ s.txBufferSize = 0)
    (hpos0 : s.txPosition = 0)
    (t : State) (e : List Nat) (m : Nat)
    (hunR : t.rxBuffer = none ∨ t.rxBufferSize = 0)
    (hpos0R : t.rxPosition = 0) :
    pushBackTxBuffer s (some d) n =
      (false, { s with errorCode := StreamExError.BufferOverflow }) ∧
    (pushBackTxBuffer s (some d) n).2.txPosition = 0 ∧
    (pushBackTxBuffer s (some d) n).2.txBuffer = s.txBuffer ∧
    pushBackRxBuffer t (some e) m =
      (false, { t with errorCode := StreamExError.BufferOverflow }) ∧
    (pushBackRxBuffer t (some e) m).2.rxPosition = 0 ∧
    (pushBackRxBuffer t (some e) m).2.rxBuffer = t.rxBuffer := by
  have hTx : pushBackTxBuffer s (some d) n =
      (false, { s with errorCode := StreamExError.BufferOverflow }) := by
    cases hsb : s.txBuffer with
    | none => simp [pushBackTxBuffer, hsb]
    | some b =>
      have hc0 : s.txBufferSize = 0 := by
        rcases hun with h | h
        · rw [hsb] at h
          exact absurd h (by simp)
        · exact h
      simp [pushBackTxBuffer, hsb, hc0]
  have hRx : pushBackRxBuffer t (some e) m =
      (false, { t with errorCode := StreamExError.BufferOverflow }) := by
    cases hsb : t.rxBuffer with
    | none => simp [pushBackRxBuffer, hsb]
    | some b =>
      have hc0 : t.rxBufferSize = 0 := by
        rcases hunR with h | h
        · rw [hsb] at h
          exact absurd h (by simp)
        · exact h
      simp [pushBackRxBuffer, hsb, hc0]
  refine ⟨hTx, ?_, ?_, hRx, ?_, ?_⟩
  · rw [hTx]
    exact hpos0
  · rw [hTx]
  · rw [hRx]
    exact hpos0R
  · rw [hRx]

/-- C10, witness: a state with a null TX pointer (declared size 7) and a
non-null RX storage of declared size 0. -/
theorem C10_witness :
    pushBackTxBuffer (construct none 7 (some [0, 0]) 0) (some [1, 2, 3]) 3 =
      (false, { construct none 7 (some [0, 0]) 0 with
        errorCode := StreamExError.BufferOverflow }) ∧
    pushBackRxBuffer (construct none 7 (some [0, 0]) 0) (some [9, 9]) 2 =
      (false, { construct none 7 (some [0, 0]) 0 with
        errorCode := StreamExError.BufferOverflow }) := by
  have h := C10_push_unbound_overflow
    (construct none 7 (some [0, 0]) 0) [1, 2, 3] 3 (by decide) (by decide)
    (construct none 7 (some [0, 0]) 0) [9, 9] 2 (by decide) (by decide)
  exact ⟨h.1, h.2.2.2.1⟩

end StreamEx

namespace StreamEx_utility

/-- The `iequal` loop succeeds exactly when the two strings agree letter
by letter up to ASCII case. -/
theorem iequalList_iff (a : List Char) : ∀ b : List Char,
    iequalList a b = true ↔ a.map tolow = b.map tolow := by
  induction a with
  | nil =>
    intro b
    cases b <;> simp [iequalList]
  | cons x xs ih =>
    intro b
    cases b with
    | nil => simp [iequalList]
    | cons y ys =>
      simp [iequalList, Bool.and_eq_true, beq_iff_eq, ih]

/-- Lowercasing fixes the literal "true". -/
theorem map_tolow_trueChars : trueChars.map tolow = trueChars := by
  decide

/-- Lowercasing fixes the literal "false". -/
theorem map_tolow_falseChars : falseChars.map tolow = falseChars := by
  decide

/-- C9: isBoolean accepts exactly the strings "0", "1" and the case
variants of "true" and "false" (characterised via ASCII lowercasing), and
rejects everything else: in particular "True" and "FALSE" are accepted,
while "2", "yes", the empty string and the null pointer are rejected. -/
theorem C9_isBoolean_exact :
    isBoolean none = false ∧
    (∀ s : List Char, isBoolean (some s) = true ↔
      (s = ['0'] ∨ s = ['1'] ∨ s.map tolow = trueChars ∨ s.map tolow = falseChars)) ∧
    isBoolean (some ['T', 'r', 'u', 'e']) = true ∧
    isBoolean (some ['F', 'A', 'L', 'S', 'E']) = true ∧
    isBoolean (some ['0']) = true ∧
    isBoolean (some ['1']) = true ∧
    isBoolean (some ['2']) = false ∧
    isBoolean (some ['y', 'e', 's']) = false ∧
    isBoolean (some []) = false := by
  refine ⟨rfl, ?_, by decide, by decide, by decide, by decide, by decide, by decide, rfl⟩
  intro s
  by_cases h0 : s = ['0']
  · simp [isBoolean, h0]
  · by_cases h1 : s = ['1']
    · simp [isBoolean, h1]
    · simp [isBoolean, h0, h1, iequalList_iff, map_tolow_trueChars, map_tolow_falseChars]

/-- C7, counterexample to the claim as stated: the conversion does not
mirror validation.  For the boolean tag, checkValueType rejects "yes"
(isBoolean is false) while stringToNumber succeeds unconditionally,
storing `false` in the boolean member. -/
theorem C7_counterexample :
    checkValueType (some ['y', 'e', 's']) dataTypeEnum.boolType = false ∧
    stringToNumber (some ['y', 'e', 's']) dataTypeEnum.boolType =
      some (dataValueUnion.boolValue false) := by
  decide

/-- C7 (amended): one direction of the mirror holds.  For every type tag
and every non-null string accepted by checkValueType, stringToNumber
succeeds and writes the union member designated by the tag (for charType
the designated slot is the uint8 member, the union having no char
member).  The converse fails: boolType converts every non-null string,
and the numeric converters also accept strings (e.g. with leading
whitespace) that the validators reject. -/
theorem C7_convert_succeeds_on_valid (t : dataTypeEnum) (s : List Char)
    (h : checkValueType (some s) t = true) :
    ∃ w, stringToNumber (some s) t = some w ∧ writesDesignatedMember w t = true := by
  cases t with
  | noneType => simp [checkValueType] at h
  | uint8Type =>
    simp only [checkValueType, isUInt8] at h
    by_cases hui : isUInteger (some s)
    · simp only [hui, Bool.not_true, Bool.false_eq_true, if_false] at h
      rcases hg : strtoulModel s with _ | v
      · rw [hg] at h
        simp at h
      · rw [hg] at h
        refine ⟨dataValueUnion.uint8Value v, ?_, rfl⟩
        have hv : ¬(v > 255) := by
          have := of_decide_eq_true h
          omega
        simp [stringToNumber, stringToUint8, hg, hv]
    · simp [hui] at h
  | uint16Type =>
    simp only [checkValueType, isUInt16] at h
    by_cases hui : isUInteger (some s)
    · simp only [hui, Bool.not_true, Bool.false_eq_true, if_false] at h
      rcases hg : strtoulModel s with _ | v
      · rw [hg] at h
        simp at h
      · rw [hg] at h
        refine ⟨dataValueUnion.uint16Value v, ?_, rfl⟩
        have hv : ¬(v > 65535) := by
          have := of_decide_eq_true h
          omega
        simp [stringToNumber, stringToUint16, hg, hv]
    · simp [hui] at h
  | uint32Type =>
    simp only [checkValueType, isUInt32] at h
    by_cases hui : isUInteger (some s)
    · simp only [hui, Bool.not_true, Bool.false_eq_true, if_false] at h
      rcases hg : strtoulModel s with _ | v
      · rw [hg] at h
        simp at h
      · refine ⟨dataValueUnion.uint32Value v, ?_, rfl⟩
        simp [stringToNumber, stringToUint32, hg]
    · simp [hui] at h
  | uint64Type =>
    simp only [checkValueType, isUInt64] at h
    by_cases hui : isUInteger (some s)
    · simp only [hui, Bool.not_true, Bool.false_eq_true, if_false] at h
      rcases hg : strtoullModel s with _ | v
      · rw [hg] at h
        simp at h
      · refine ⟨dataValueUnion.uint64Value v, ?_, rfl⟩
        simp [stringToNumber, stringToUint64, hg]
    · simp [hui] at h
  | int8Type =>
    simp only [checkValueType, isInt8] at h
    by_cases hui : isInteger (some s)
    · simp only [hui, Bool.not_true, Bool.false_eq_true, if_false] at h
      rcases hg : strtollModel s with _ | v
      · rw [hg] at h
        simp at h
      · rw [hg] at h
        refine ⟨dataValueUnion.int8Value v, ?_, rfl⟩
        have hv := of_decide_eq_true h
        have hv1 : ¬(v < -128 ∨ v > 127) := by omega
        simp [stringToNumber, stringToInt8, hg, hv1]
    · simp [hui] at h
  | int16Type =>
    simp only [checkValueType, isInt16] at h
    by_cases hui : isInteger (some s)
    · simp only [hui, Bool.not_true, Bool.false_eq_true, if_false] at h
      rcases hg : strtollModel s with _ | v
      · rw [hg] at h
        simp at h
      · rw [hg] at h
        refine ⟨dataValueUnion.int16Value v, ?_, rfl⟩
        have hv := of_decide_eq_true h
        have hv1 : ¬(v < -32768 ∨ v > 32767) := by omega
        simp [stringToNumber, stringToInt16, hg, hv1]
    · simp [hui] at h
  | int32Type =>
    simp only [checkValueType, isInt32] at h
    by_cases hui : isInteger (some s)
    · simp only [hui, Bool.not_true, Bool.false_eq_true, if_false] at h
      rcases hg : strtollModel s with _ | v
      · rw [hg] at h
        simp at h
      · rw [hg] at h
        refine ⟨dataValueUnion.int32Value v, ?_, rfl⟩
        have hv := of_decide_eq_true h
        have hv1 : ¬(v < -2147483648 ∨ v > 2147483647) := by omega
        simp [stringToNumber, stringToInt32, hg, hv1]
    · simp [hui] at h
  | int64Type =>
    simp only [checkValueType, isInt64] at h
    by_cases hui : isInteger (some s)
    · simp only [hui, Bool.not_true, Bool.false_eq_true, if_false] at h
      rcases hg : strtollModel s with _ | v
      · rw [hg] at h
        simp at h
      · refine ⟨dataValueUnion.int64Value v, ?_, rfl⟩
        simp [stringToNumber, stringToInt64, hg]
    · simp [hui] at h
  | floatType =>
    simp only [checkValueType, isFloat] at h
    by_cases hui : isNumber (some s)
    · simp only [hui, Bool.not_true, Bool.false_eq_true, if_false] at h
      rcases hg : strtofModel s with _ | v
      · rw [hg] at h
        simp at h
      · refine ⟨dataValueUnion.floatValue v, ?_, rfl⟩
        simp [stringToNumber, stringToFloat, hg]
    · simp [hui] at h
  | doubleType =>
    simp only [checkValueType, isDouble] at h
    by_cases hui : isNumber (some s)
    · simp only [hui, Bool.not_true, Bool.false_eq_true, if_false] at h
      rcases hg : strtodModel s with _ | v
      · rw [hg] at h
        simp at h
      · refine ⟨dataValueUnion.doubleValue v, ?_, rfl⟩
        simp [stringToNumber, stringToDouble, hg]
    · simp [hui] at h
  | charType =>
    cases s with
    | nil => exact ⟨dataValueUnion.uint8Value 0, rfl, rfl⟩
    | cons c cs => exact ⟨dataValueUnion.uint8Value c.toNat, rfl, rfl⟩
  | stringType =>
    exact ⟨dataValueUnion.stringValue (s.take (STREAMEX_STRING_CAP - 1)), rfl, rfl⟩
  | boolType =>
    exact ⟨dataValueUnion.boolValue ((s == ['1']) || iequalList s trueChars), rfl, rfl⟩

/-- C7, witness: the amended theorem applied to the valid uint8 token
"255" and the valid boolean token "1". -/
theorem C7_witness :
    (checkValueType (some ['2', '5', '5']) dataTypeEnum.uint8Type = true ∧
      ∃ w, stringToNumber (some ['2', '5', '5']) dataTypeEnum.uint8Type = some w ∧
        writesDesignatedMember w dataTypeEnum.uint8Type = true) ∧
    (checkValueType (some ['1']) dataTypeEnum.boolType = true ∧
      ∃ w, stringToNumber (some ['1']) dataTypeEnum.boolType = some w ∧
        writesDesignatedMember w dataTypeEnum.boolType = true) :=
  ⟨⟨by decide, C7_convert_succeeds_on_valid dataTypeEnum.uint8Type ['2', '5', '5'] (by decide)⟩,
   ⟨by decide, C7_convert_succeeds_on_valid dataTypeEnum.boolType ['1'] (by decide)⟩⟩

end StreamEx_utility

namespace StreamEx

/-- Overfull TX state for claim C8, reached by overwriting a capacity-4
buffer with exactly 4 bytes (writeTxBuffer checks against the full
capacity, so used_length = 4 = capacity here). -/
def c8s : State :=
  (writeTxBuffer (construct (some [0, 0, 0, 0]) 4 none 0) [97, 98, 99, 101] 4).2

/-- C8, counterexample to the claim as stated: from the overfull state
(used_length = capacity = 4, reachable via writeTxBuffer), write of a
2-byte request returns 3 — the TX fill after the call — although exactly
one byte of the request was accepted (the content gained only the first
request byte). -/
theorem C8_counterexample :
    c8s.txPosition = 4 ∧ c8s.txBufferSize = 4 ∧
    (write c8s (some [120, 121]) 2).1 = 3 ∧
    txContent c8s = [97, 98, 99, 0] ∧
    txContent (write c8s (some [120, 121]) 2).2 =
      (txContent c8s).drop 2 ++ [120, 121].take 1 ∧
    (write c8s (some [120, 121]) 2).1 ≠ 1 := by
  decide

/-- C8 (amended): whenever used_length < capacity (which holds in every
append-only history; overwrite can break it) or the buffer is empty,
`write(buffer, size)` with a non-null buffer and size ≥ 1 returns
min(size, capacity - 1), which is exactly the number of bytes of the
request that were accepted into the TX buffer: the content after the
call ends with precisely the first min(size, capacity - 1) bytes of the
request. -/
theorem C8_write_returns_accepted
    (s : State) (d buf : List Nat)
    (hb : s.txBuffer = some buf) (hblen : buf.length = s.txBufferSize)
    (hcap32 : s.txBufferSize < 4294967296)
    (hinv : s.txPosition = 0 ∨ s.txPosition < s.txBufferSize)
    (hd1 : 1 ≤ d.length) :
    (write s (some d) d.length).1 = min d.length (s.txBufferSize - 1) ∧
    ∃ rest, txContent (write s (some d) d.length).2 =
      rest ++ d.take (min d.length (s.txBufferSize - 1)) := by
  have hcond : ¬((some d : Option (List Nat)).isNone = true ∨ d.length = 0) := by
    simp only [Option.isNone_some, Bool.false_eq_true, false_or]
    omega
  have hw : write s (some d) d.length =
      (if (pushBackTxBuffer s (some d) d.length).1 then d.length
       else (pushBackTxBuffer s (some d) d.length).2.txPosition,
       (pushBackTxBuffer s (some d) d.length).2) := by
    simp only [write, if_neg hcond]
  rw [hw]
  by_cases hcap0 : s.txBufferSize = 0
  · have hres : pushBackTxBuffer s (some d) d.length =
        (false, { s with errorCode := StreamExError.BufferOverflow }) := by
      simp [pushBackTxBuffer, hb, hcap0]
    have hpos0 : s.txPosition = 0 := by
      rcases hinv with h | h
      · exact h
      · omega
    rw [hres]
    constructor
    · simp only [Bool.false_eq_true, if_false]
      have hm : min d.length (s.txBufferSize - 1) = 0 := by
        rw [hcap0]
        simp
      rw [hm]
      simpa using hpos0
    · refine ⟨[], ?_⟩
      have hm : min d.length (s.txBufferSize - 1) = 0 := by
        rw [hcap0]
        simp
      rw [hm]
      simp [txContent, hb, hpos0]
  · have hpos : s.txPosition < s.txBufferSize := by
      rcases hinv with h | h
      · omega
      · exact h
    by_cases h1 : d.length ≤ s.txBufferSize - s.txPosition - 1
    · obtain ⟨g1, g2, g3, g4, g5, g6, g7, buf', hbuf', hlen', htake'⟩ :=
        pushBackTx_fits s d buf hb hblen hcap32 hpos h1
      have hminA : min d.length (s.txBufferSize - 1) = d.length :=
        Nat.min_eq_left (by omega)
      rw [g1, hminA]
      refine ⟨by simp, buf.take s.txPosition, ?_⟩
      have hc : txContent (pushBackTxBuffer s (some d) d.length).2 =
          buf'.take (s.txPosition + d.length) := by
        simp [txContent, hbuf', g3]
      simp only [hc, htake', List.take_length]
    · by_cases h2 : d.length ≤ s.txBufferSize - 1
      · obtain ⟨g1, g2, g3, g4, g5, g6, g7, buf', hbuf', hlen', htake'⟩ :=
          pushBackTx_evict s d buf hb hblen hcap32 hpos (by omega) h2
        have hminA : min d.length (s.txBufferSize - 1) = d.length :=
          Nat.min_eq_left (by omega)
        rw [g1, hminA]
        refine ⟨by simp, (buf.take s.txPosition).drop
          (d.length - (s.txBufferSize - s.txPosition - 1)), ?_⟩
        have hc : txContent (pushBackTxBuffer s (some d) d.length).2 =
            buf'.take (s.txBufferSize - 1) := by
          simp [txContent, hbuf', g3]
        simp only [hc, htake', List.take_length]
      · obtain ⟨g1, g2, g3, g4, g5, g6, g7, buf', hbuf', hlen', htake'⟩ :=
          pushBackTx_toobig s d buf hb hblen hcap32 (by omega) (by omega) (by omega)
        have hminB : min d.length (s.txBufferSize - 1) = s.txBufferSize - 1 :=
          Nat.min_eq_right (by omega)
        rw [g1, hminB]
        constructor
        · simp only [Bool.false_eq_true, if_false]
          exact g3
        · refine ⟨[], ?_⟩
          have hc : txContent (pushBackTxBuffer s (some d) d.length).2 =
              buf'.take (s.txBufferSize - 1) := by
            simp [txContent, hbuf', g3]
          simp only [hc, htake', List.nil_append]

/-- C8, witness: the amended theorem applied to a capacity-4 buffer
holding one byte and a 2-byte request (full acceptance), checking the
returned count equals min(size, capacity-1) = 2. -/
theorem C8_witness :
    (write (pushBackTxBuffer (construct (some [0, 0, 0, 0]) 4 none 0)
        (some [7]) 1).2 (some [8, 9]) 2).1 = min 2 3 ∧
    ∃ rest, txContent (write (pushBackTxBuffer (construct (some [0, 0, 0, 0]) 4 none 0)
        (some [7]) 1).2 (some [8, 9]) 2).2 = rest ++ [8, 9].take (min 2 3) :=
  C8_write_returns_accepted
    (pushBackTxBuffer (construct (some [0, 0, 0, 0]) 4 none 0) (some [7]) 1).2
    [8, 9] [7, 0, 0, 0] (by decide) (by decide) (by decide) (by decide) (by decide)

end StreamEx

namespace StreamEx

/-- One buffer-mutating API call, for stating the C1 invariant over
arbitrary call sequences: bind (setTxBuffer/setRxBuffer), clear,
overwrite (writeTxBuffer/writeRxBuffer), append (pushBack), pop-front,
pop-all and remove-front, on either buffer. -/
inductive Op where
  | bindTx (buf : Option (List Nat)) (size : Nat)
  | bindRx (buf : Option (List Nat)) (size : Nat)
  | clearTx
  | clearRx
  | overwriteTx (data : List Nat) (size : Nat)
  | overwriteRx (data : List Nat) (size : Nat)
  | appendTx (data : Option (List Nat)) (size : Nat)
  | appendRx (data : Option (List Nat)) (size : Nat)
  | popFrontTx (outNull : Bool) (size : Nat)
  | popFrontRx (outNull : Bool) (size : Nat)
  | popAllTx (outNull : Bool) (maxSize : Nat)
  | popAllRx (outNull : Bool) (maxSize : Nat)
  | removeFrontTx (size : Nat)
  | removeFrontRx (size : Nat)

/-- The state transition of one call (the returned values are dropped;
only the state matters for the invariant). -/
def applyOp (s : State) : Op → State
  | .bindTx b n => setTxBuffer s b n
  | .bindRx b n => setRxBuffer s b n
  | .clearTx => clearTxBuffer s
  | .clearRx => clearRxBuffer s
  | .overwriteTx d n => (writeTxBuffer s d n).2
  | .overwriteRx d n => (writeRxBuffer s d n).2
  | .appendTx d n => (pushBackTxBuffer s d n).2
  | .appendRx d n => (pushBackRxBuffer s d n).2
  | .popFrontTx o n => (popFrontTxBuffer s o n).2.2
  | .popFrontRx o n => (popFrontRxBuffer s o n).2.2
  | .popAllTx o n => (popAllTxBuffer s o n).2.2
  | .popAllRx o n => (popAllRxBuffer s o n).2.2
  | .removeFrontTx n => (removeFrontTxBuffer s n).2
  | .removeFrontRx n => (removeFrontRxBuffer s n).2

/-- Run a sequence of calls left to right. -/
def runOps (s : State) (ops : List Op) : State :=
  ops.foldl applyOp s

/-- Well-formedness of one call's arguments: sizes passed to bind are
`uint32_t` values (below 2^32), as the C types force. -/
def OpSizeOK : Op → Bool
  | .bindTx _ n => decide (n < 4294967296)
  | .bindRx _ n => decide (n < 4294967296)
  | _ => true

/-- Whether the call is not an overwrite (writeTxBuffer/writeRxBuffer). -/
def NotOverwrite : Op → Bool
  | .overwriteTx _ _ => false
  | .overwriteRx _ _ => false
  | _ => true

/-- The weak C1 invariant: used lengths never exceed the capacities, and
the capacities are `uint32_t` values. -/
def PosLe (s : State) : Prop :=
  s.txPosition ≤ s.txBufferSize ∧ s.rxPosition ≤ s.rxBufferSize ∧
  s.txBufferSize < 4294967296 ∧ s.rxBufferSize < 4294967296

/-- The strict C1 invariant: each buffer is empty or strictly below its
capacity (hence below `capacity` whenever `capacity > 0`). -/
def PosLt (s : State) : Prop :=
  (s.txPosition = 0 ∨ s.txPosition < s.txBufferSize) ∧
  (s.rxPosition = 0 ∨ s.rxPosition < s.rxBufferSize)

/-- `dropFrontTx` never increases the TX position and touches nothing
else but the TX storage content. -/
theorem dropFrontTx_posinv (s : State) (n : Nat) :
    (dropFrontTx s n).txPosition ≤ s.txPosition ∧
    (dropFrontTx s n).txBufferSize = s.txBufferSize ∧
    (dropFrontTx s n).rxBuffer = s.rxBuffer ∧
    (dropFrontTx s n).rxBufferSize = s.rxBufferSize ∧
    (dropFrontTx s n).rxPosition = s.rxPosition ∧
    (dropFrontTx s n).errorCode = s.errorCode ∧
    (dropFrontTx s n).txBuffer.isSome = s.txBuffer.isSome := by
  rcases ho : s.txBuffer with _ | buf
  · simp [dropFrontTx, ho]
  · simp only [dropFrontTx, ho]
    split_ifs with h0 hle <;> simp [ho] <;> omega

/-- On a bound buffer `dropFrontTx` subtracts exactly `n` (clamped). -/
theorem dropFrontTx_pos_eq (s : State) (n : Nat) (hb : s.txBuffer.isSome = true) :
    (dropFrontTx s n).txPosition = s.txPosition - n := by
  rcases ho : s.txBuffer with _ | buf
  · rw [ho] at hb
    simp at hb
  · simp only [dropFrontTx, ho]
    split_ifs with h0 hle
    · rcases h0 with h | h <;> omega
    · simp
      omega
    · simp

/-- Position invariant of `pushBackTxBuffer`: the TX position stays at
most the capacity; it stays strict (zero or below capacity) when it was;
capacities and the RX side are untouched. -/
theorem pushBackTx_posinv (s : State) (d : Option (List Nat)) (n : Nat)
    (hcap32 : s.txBufferSize < 4294967296)
    (hle : s.txPosition ≤ s.txBufferSize) :
    (pushBackTxBuffer s d n).2.txPosition ≤ s.txBufferSize ∧
    ((s.txPosition = 0 ∨ s.txPosition < s.txBufferSize) →
      ((pushBackTxBuffer s d n).2.txPosition = 0 ∨
       (pushBackTxBuffer s d n).2.txPosition < s.txBufferSize)) ∧
    (pushBackTxBuffer s d n).2.txBufferSize = s.txBufferSize ∧
    (pushBackTxBuffer s d n).2.rxBufferSize = s.rxBufferSize ∧
    (pushBackTxBuffer s d n).2.rxPosition = s.rxPosition := by
  cases d with
  | none =>
    simp only [pushBackTxBuffer]
    refine ⟨hle, fun h => h, ?_, ?_, ?_⟩ <;> trivial
  | some dd =>
    rcases ho : s.txBuffer with _ | buf
    · simp only [pushBackTxBuffer, ho]
      refine ⟨hle, fun h => h, ?_, ?_, ?_⟩ <;> trivial
    · by_cases hc0 : s.txBufferSize = 0
      · simp only [pushBackTxBuffer, ho, if_pos hc0]
        refine ⟨hle, fun h => h, ?_, ?_, ?_⟩ <;> trivial
      · simp only [pushBackTxBuffer, ho, if_neg hc0]
        by_cases hov : n > (if s.txBufferSize > s.txPosition
            then s.txBufferSize - s.txPosition - 1 else 0)
        · rw [if_pos hov]
          obtain ⟨hD1, hD2, hD3, hD4, hD5, hD6, hD7⟩ :=
            dropFrontTx_posinv s (n - (if s.txBufferSize > s.txPosition
              then s.txBufferSize - s.txPosition - 1 else 0))
          set need := n - (if s.txBufferSize > s.txPosition
            then s.txBufferSize - s.txPosition - 1 else 0) with hneed
          have hneed1 : 1 ≤ need := by omega
          have hdp : (dropFrontTx s need).txPosition = s.txPosition - need :=
            dropFrontTx_pos_eq s need (by rw [ho]; rfl)
          have hplt : (dropFrontTx s need).txPosition < s.txBufferSize := by
            rw [hdp]
            omega
          rcases hd : (dropFrontTx s need).txBuffer with _ | buf1
          · rw [hd] at hD7
            rw [ho] at hD7
            simp at hD7
          · have hu1 : u32sub s.txBufferSize (dropFrontTx s need).txPosition =
                s.txBufferSize - (dropFrontTx s need).txPosition :=
              u32sub_eq (by omega) hcap32
            have hu2 : u32sub (s.txBufferSize - (dropFrontTx s need).txPosition) 1 =
                s.txBufferSize - (dropFrontTx s need).txPosition - 1 :=
              u32sub_eq (by omega) (by omega)
            simp only [hD2, hu1, hu2, hd]
            by_cases hcc : min n (s.txBufferSize - (dropFrontTx s need).txPosition - 1) ≠ 0
            · rw [if_pos hcc]
              refine ⟨?_, ?_, ?_, ?_, ?_⟩
              · simp only []
                have := Nat.min_le_right n
                  (s.txBufferSize - (dropFrontTx s need).txPosition - 1)
                omega
              · intro hstrict
                right
                simp only []
                have := Nat.min_le_right n
                  (s.txBufferSize - (dropFrontTx s need).txPosition - 1)
                omega
              · simpa using hD2
              · simpa using hD4
              · simpa using hD5
            · rw [if_neg hcc]
              refine ⟨by simpa [hdp] using (by omega : s.txPosition - need ≤ s.txBufferSize),
                fun hstrict => Or.inr (by simpa [hdp] using (by omega : s.txPosition - need < s.txBufferSize)),
                by simpa using hD2, by simpa using hD4, by simpa using hD5⟩
        · rw [if_neg hov]
          by_cases hgt : s.txBufferSize > s.txPosition
          · rw [if_pos hgt] at hov
            have hu1 : u32sub s.txBufferSize s.txPosition =
                s.txBufferSize - s.txPosition := u32sub_eq (by omega) hcap32
            have hu2 : u32sub (s.txBufferSize - s.txPosition) 1 =
                s.txBufferSize - s.txPosition - 1 := u32sub_eq (by omega) (by omega)
            simp only [hu1, hu2, ho]
            by_cases hcc : min n (s.txBufferSize - s.txPosition - 1) ≠ 0
            · rw [if_pos hcc]
              refine ⟨?_, ?_, rfl, rfl, rfl⟩
              · simp only []
                have := Nat.min_le_right n (s.txBufferSize - s.txPosition - 1)
                omega
              · intro hstrict
                right
                simp only []
                have := Nat.min_le_right n (s.txBufferSize - s.txPosition - 1)
                omega
            · rw [if_neg hcc]
              exact ⟨hle, fun h => h, rfl, rfl, rfl⟩
          · rw [if_neg hgt] at hov
            have hn0 : n = 0 := by omega
            have hpc : s.txPosition = s.txBufferSize := by omega
            have hu0 : min n (u32sub (u32sub s.txBufferSize s.txPosition) 1) = 0 := by
              rw [hn0]
              simp
            simp only [hu0]
            rw [if_neg (by simp)]
            refine ⟨hle, fun h => h, ?_, ?_, ?_⟩ <;> trivial

end StreamEx

namespace StreamEx

/-- Position invariant of `writeTxBuffer`: the TX position stays at most
the capacity (it can reach it exactly when size = capacity); sizes and
the RX position are untouched. -/
theorem writeTx_posinv (s : State) (d : List Nat) (n : Nat)
    (hle : s.txPosition ≤ s.txBufferSize) :
    (writeTxBuffer s d n).2.txPosition ≤ s.txBufferSize ∧
    (writeTxBuffer s d n).2.txBufferSize = s.txBufferSize ∧
    (writeTxBuffer s d n).2.rxBufferSize = s.rxBufferSize ∧
    (writeTxBuffer s d n).2.rxPosition = s.rxPosition := by
  by_cases hgt : n > s.txBufferSize
  · refine ⟨?_, ?_, ?_, ?_⟩ <;> simp only [writeTxBuffer, if_pos hgt] <;> exact hle
  · rcases ho : s.txBuffer with _ | buf
    · refine ⟨?_, ?_, ?_, ?_⟩ <;>
        simp only [writeTxBuffer, if_neg hgt, ho, Option.map] <;> omega
    · by_cases hc0 : s.txBufferSize ≠ 0
      · refine ⟨?_, ?_, ?_, ?_⟩ <;>
          simp only [writeTxBuffer, if_neg hgt, ho, Option.map, if_pos hc0] <;> omega
      · refine ⟨?_, ?_, ?_, ?_⟩ <;>
          simp only [writeTxBuffer, if_neg hgt, ho, Option.map, if_neg hc0] <;> omega

/-- Position invariant of `popFrontTxBuffer`: the TX position never
grows; sizes and the RX position are untouched. -/
theorem popFrontTx_posinv (s : State) (o : Bool) (n : Nat) :
    (popFrontTxBuffer s o n).2.2.txPosition ≤ s.txPosition ∧
    (popFrontTxBuffer s o n).2.2.txBufferSize = s.txBufferSize ∧
    (popFrontTxBuffer s o n).2.2.rxBufferSize = s.rxBufferSize ∧
    (popFrontTxBuffer s o n).2.2.rxPosition = s.rxPosition := by
  unfold popFrontTxBuffer
  by_cases h1 : o = true
  · rw [if_pos h1]
    exact ⟨le_refl _, rfl, rfl, rfl⟩
  · rw [if_neg h1]
    by_cases h2 : n = 0
    · rw [if_pos h2]
      exact ⟨le_refl _, rfl, rfl, rfl⟩
    · rw [if_neg h2]
      by_cases h3 : n > s.txPosition
      · rw [if_pos h3, if_pos h3]
        by_cases h4 : s.txPosition = 0
        · rw [if_pos h4]
          exact ⟨le_refl _, rfl, rfl, rfl⟩
        · rw [if_neg h4]
          obtain ⟨k1, k2, k3, k4, k5, k6, k7⟩ :=
            dropFrontTx_posinv { s with errorCode := StreamExError.NotEnoughData }
              s.txPosition
          exact ⟨k1, k2, k4, k5⟩
      · rw [if_neg h3, if_neg h3]
        rw [if_neg h2]
        obtain ⟨k1, k2, k3, k4, k5, k6, k7⟩ := dropFrontTx_posinv s n
        exact ⟨k1, k2, k4, k5⟩

/-- Position invariant of `popAllTxBuffer`. -/
theorem popAllTx_posinv (s : State) (o : Bool) (m : Nat) :
    (popAllTxBuffer s o m).2.2.txPosition ≤ s.txPosition ∧
    (popAllTxBuffer s o m).2.2.txBufferSize = s.txBufferSize ∧
    (popAllTxBuffer s o m).2.2.rxBufferSize = s.rxBufferSize ∧
    (popAllTxBuffer s o m).2.2.rxPosition = s.rxPosition := by
  unfold popAllTxBuffer
  by_cases h1 : o = true
  · rw [if_pos h1]
    exact ⟨le_refl _, rfl, rfl, rfl⟩
  · rw [if_neg h1]
    by_cases h2 : m = 0
    · rw [if_pos h2]
      exact ⟨le_refl _, rfl, rfl, rfl⟩
    · rw [if_neg h2]
      obtain ⟨k1, k2, k3, k4, k5, k6, k7⟩ := dropFrontTx_posinv s (min s.txPosition m)
      exact ⟨k1, k2, k4, k5⟩

/-- Position invariant of `removeFrontTxBuffer`. -/
theorem removeFrontTx_posinv (s : State) (n : Nat) :
    (removeFrontTxBuffer s n).2.txPosition ≤ s.txPosition ∧
    (removeFrontTxBuffer s n).2.txBufferSize = s.txBufferSize ∧
    (removeFrontTxBuffer s n).2.rxBufferSize = s.rxBufferSize ∧
    (removeFrontTxBuffer s n).2.rxPosition = s.rxPosition := by
  unfold removeFrontTxBuffer
  by_cases h1 : n > s.txPosition
  · rw [if_pos h1]
    exact ⟨le_refl _, rfl, rfl, rfl⟩
  · rw [if_neg h1]
    rcases ho : s.txBuffer with _ | buf
    · exact ⟨Nat.sub_le _ _, rfl, rfl, rfl⟩
    · exact ⟨Nat.sub_le _ _, rfl, rfl, rfl⟩

/-- Field effects of `setTxBuffer`: position reset, new size, RX side
untouched. -/
theorem setTx_posinv (s : State) (b : Option (List Nat)) (n : Nat) :
    (setTxBuffer s b n).txPosition = 0 ∧
    (setTxBuffer s b n).txBufferSize = n ∧
    (setTxBuffer s b n).rxBufferSize = s.rxBufferSize ∧
    (setTxBuffer s b n).rxPosition = s.rxPosition := by
  rcases b with _ | bb
  · exact ⟨rfl, rfl, rfl, rfl⟩
  · by_cases hn : n ≠ 0
    · refine ⟨?_, ?_, ?_, ?_⟩ <;> simp only [setTxBuffer, if_pos hn]
    · refine ⟨?_, ?_, ?_, ?_⟩ <;> simp only [setTxBuffer, if_neg hn]

/-- Field effects of `clearTxBuffer`. -/
theorem clearTx_posinv (s : State) :
    (clearTxBuffer s).txPosition = 0 ∧
    (clearTxBuffer s).txBufferSize = s.txBufferSize ∧
    (clearTxBuffer s).rxBufferSize = s.rxBufferSize ∧
    (clearTxBuffer s).rxPosition = s.rxPosition := by
  rcases ho : s.txBuffer with _ | buf
  · refine ⟨?_, ?_, ?_, ?_⟩ <;> simp only [clearTxBuffer, ho]
  · by_cases hn : s.txBufferSize ≠ 0
    · refine ⟨?_, ?_, ?_, ?_⟩ <;> simp only [clearTxBuffer, ho, if_pos hn]
    · refine ⟨?_, ?_, ?_, ?_⟩ <;> simp only [clearTxBuffer, ho, if_neg hn]

end StreamEx

namespace StreamEx

/-- `dropFrontRx` never increases the TX position and touches nothing
else but the TX storage content. -/
theorem dropFrontRx_posinv (s : State) (n : Nat) :
    (dropFrontRx s n).rxPosition ≤ s.rxPosition ∧
    (dropFrontRx s n).rxBufferSize = s.rxBufferSize ∧
    (dropFrontRx s n).txBuffer = s.txBuffer ∧
    (dropFrontRx s n).txBufferSize = s.txBufferSize ∧
    (dropFrontRx s n).txPosition = s.txPosition ∧
    (dropFrontRx s n).errorCode = s.errorCode ∧
    (dropFrontRx s n).rxBuffer.isSome = s.rxBuffer.isSome := by
  rcases ho : s.rxBuffer with _ | buf
  · simp [dropFrontRx, ho]
  · simp only [dropFrontRx, ho]
    split_ifs with h0 hle <;> simp [ho] <;> omega

/-- On a bound buffer `dropFrontRx` subtracts exactly `n` (clamped). -/
theorem dropFrontRx_pos_eq (s : State) (n : Nat) (hb : s.rxBuffer.isSome = true) :
    (dropFrontRx s n).rxPosition = s.rxPosition - n := by
  rcases ho : s.rxBuffer with _ | buf
  · rw [ho] at hb
    simp at hb
  · simp only [dropFrontRx, ho]
    split_ifs with h0 hle
    · rcases h0 with h | h <;> omega
    · simp
      omega
    · simp

/-- Position invariant of `pushBackRxBuffer`: the TX position stays at
most the capacity; it stays strict (zero or below capacity) when it was;
capacities and the RX side are untouched. -/
theorem pushBackRx_posinv (s : State) (d : Option (List Nat)) (n : Nat)
    (hcap32 : s.rxBufferSize < 4294967296)
    (hle : s.rxPosition ≤ s.rxBufferSize) :
    (pushBackRxBuffer s d n).2.rxPosition ≤ s.rxBufferSize ∧
    ((s.rxPosition = 0 ∨ s.rxPosition < s.rxBufferSize) →
      ((pushBackRxBuffer s d n).2.rxPosition = 0 ∨
       (pushBackRxBuffer s d n).2.rxPosition < s.rxBufferSize)) ∧
    (pushBackRxBuffer s d n).2.rxBufferSize = s.rxBufferSize ∧
    (pushBackRxBuffer s d n).2.txBufferSize = s.txBufferSize ∧
    (pushBackRxBuffer s d n).2.txPosition = s.txPosition := by
  cases d with
  | none =>
    simp only [pushBackRxBuffer]
    refine ⟨hle, fun h => h, ?_, ?_, ?_⟩ <;> trivial
  | some dd =>
    rcases ho : s.rxBuffer with _ | buf
    · simp only [pushBackRxBuffer, ho]
      refine ⟨hle, fun h => h, ?_, ?_, ?_⟩ <;> trivial
    · by_cases hc0 : s.rxBufferSize = 0
      · simp only [pushBackRxBuffer, ho, if_pos hc0]
        refine ⟨hle, fun h => h, ?_, ?_, ?_⟩ <;> trivial
      · simp only [pushBackRxBuffer, ho, if_neg hc0]
        by_cases hov : n > (if s.rxBufferSize > s.rxPosition
            then s.rxBufferSize - s.rxPosition - 1 else 0)
        · rw [if_pos hov]
          obtain ⟨hD1, hD2, hD3, hD4, hD5, hD6, hD7⟩ :=
            dropFrontRx_posinv s (n - (if s.rxBufferSize > s.rxPosition
              then s.rxBufferSize - s.rxPosition - 1 else 0))
          set need := n - (if s.rxBufferSize > s.rxPosition
            then s.rxBufferSize - s.rxPosition - 1 else 0) with hneed
          have hneed1 : 1 ≤ need := by omega
          have hdp : (dropFrontRx s need).rxPosition = s.rxPosition - need :=
            dropFrontRx_pos_eq s need (by rw [ho]; rfl)
          have hplt : (dropFrontRx s need).rxPosition < s.rxBufferSize := by
            rw [hdp]
            omega
          rcases hd : (dropFrontRx s need).rxBuffer with _ | buf1
          · rw [hd] at hD7
            rw [ho] at hD7
            simp at hD7
          · have hu1 : u32sub s.rxBufferSize (dropFrontRx s need).rxPosition =
                s.rxBufferSize - (dropFrontRx s need).rxPosition :=
              u32sub_eq (by omega) hcap32
            have hu2 : u32sub (s.rxBufferSize - (dropFrontRx s need).rxPosition) 1 =
                s.rxBufferSize - (dropFrontRx s need).rxPosition - 1 :=
              u32sub_eq (by omega) (by omega)
            simp only [hD2, hu1, hu2, hd]
            by_cases hcc : min n (s.rxBufferSize - (dropFrontRx s need).rxPosition - 1) ≠ 0
            · rw [if_pos hcc]
              refine ⟨?_, ?_, ?_, ?_, ?_⟩
              · simp only []
                have := Nat.min_le_right n
                  (s.rxBufferSize - (dropFrontRx s need).rxPosition - 1)
                omega
              · intro hstrict
                right
                simp only []
                have := Nat.min_le_right n
                  (s.rxBufferSize - (dropFrontRx s need).rxPosition - 1)
                omega
              · simpa using hD2
              · simpa using hD4
              · simpa using hD5
            · rw [if_neg hcc]
              refine ⟨by simpa [hdp] using (by omega : s.rxPosition - need ≤ s.rxBufferSize),
                fun hstrict => Or.inr (by simpa [hdp] using (by omega : s.rxPosition - need < s.rxBufferSize)),
                by simpa using hD2, by simpa using hD4, by simpa using hD5⟩
        · rw [if_neg hov]
          by_cases hgt : s.rxBufferSize > s.rxPosition
          · rw [if_pos hgt] at hov
            have hu1 : u32sub s.rxBufferSize s.rxPosition =
                s.rxBufferSize - s.rxPosition := u32sub_eq (by omega) hcap32
            have hu2 : u32sub (s.rxBufferSize - s.rxPosition) 1 =
                s.rxBufferSize - s.rxPosition - 1 := u32sub_eq (by omega) (by omega)
            simp only [hu1, hu2, ho]
            by_cases hcc : min n (s.rxBufferSize - s.rxPosition - 1) ≠ 0
            · rw [if_pos hcc]
              refine ⟨?_, ?_, rfl, rfl, rfl⟩
              · simp only []
                have := Nat.min_le_right n (s.rxBufferSize - s.rxPosition - 1)
                omega
              · intro hstrict
                right
                simp only []
                have := Nat.min_le_right n (s.rxBufferSize - s.rxPosition - 1)
                omega
            · rw [if_neg hcc]
              exact ⟨hle, fun h => h, rfl, rfl, rfl⟩
          · rw [if_neg hgt] at hov
            have hn0 : n = 0 := by omega
            have hpc : s.rxPosition = s.rxBufferSize := by omega
            have hu0 : min n (u32sub (u32sub s.rxBufferSize s.rxPosition) 1) = 0 := by
              rw [hn0]
              simp
            simp only [hu0]
            rw [if_neg (by simp)]
            refine ⟨hle, fun h => h, ?_, ?_, ?_⟩ <;> trivial

/-- Position invariant of `writeRxBuffer`: the TX position stays at most
the capacity (it can reach it exactly when size = capacity); sizes and
the RX position are untouched. -/
theorem writeRx_posinv (s : State) (d : List Nat) (n : Nat)
    (hle : s.rxPosition ≤ s.rxBufferSize) :
    (writeRxBuffer s d n).2.rxPosition ≤ s.rxBufferSize ∧
    (writeRxBuffer s d n).2.rxBufferSize = s.rxBufferSize ∧
    (writeRxBuffer s d n).2.txBufferSize = s.txBufferSize ∧
    (writeRxBuffer s d n).2.txPosition = s.txPosition := by
  by_cases hgt : n > s.rxBufferSize
  · refine ⟨?_, ?_, ?_, ?_⟩ <;> simp only [writeRxBuffer, if_pos hgt] <;> exact hle
  · rcases ho : s.rxBuffer with _ | buf
    · refine ⟨?_, ?_, ?_, ?_⟩ <;>
        simp only [writeRxBuffer, if_neg hgt, ho, Option.map] <;> omega
    · by_cases hc0 : s.rxBufferSize ≠ 0
      · refine ⟨?_, ?_, ?_, ?_⟩ <;>
          simp only [writeRxBuffer, if_neg hgt, ho, Option.map, if_pos hc0] <;> omega
      · refine ⟨?_, ?_, ?_, ?_⟩ <;>
          simp only [writeRxBuffer, if_neg hgt, ho, Option.map, if_neg hc0] <;> omega

/-- Position invariant of `popFrontRxBuffer`: the TX position never
grows; sizes and the RX position are untouched. -/
theorem popFrontRx_posinv (s : State) (o : Bool) (n : Nat) :
    (popFrontRxBuffer s o n).2.2.rxPosition ≤ s.rxPosition ∧
    (popFrontRxBuffer s o n).2.2.rxBufferSize = s.rxBufferSize ∧
    (popFrontRxBuffer s o n).2.2.txBufferSize = s.txBufferSize ∧
    (popFrontRxBuffer s o n).2.2.txPosition = s.txPosition := by
  unfold popFrontRxBuffer
  by_cases h1 : o = true
  · rw [if_pos h1]
    exact ⟨le_refl _, rfl, rfl, rfl⟩
  · rw [if_neg h1]
    by_cases h2 : n = 0
    · rw [if_pos h2]
      exact ⟨le_refl _, rfl, rfl, rfl⟩
    · rw [if_neg h2]
      by_cases h3 : n > s.rxPosition
      · rw [if_pos h3, if_pos h3]
        by_cases h4 : s.rxPosition = 0
        · rw [if_pos h4]
          exact ⟨le_refl _, rfl, rfl, rfl⟩
        · rw [if_neg h4]
          obtain ⟨k1, k2, k3, k4, k5, k6, k7⟩ :=
            dropFrontRx_posinv { s with errorCode := StreamExError.NotEnoughData }
              s.rxPosition
          exact ⟨k1, k2, k4, k5⟩
      · rw [if_neg h3, if_neg h3]
        rw [if_neg h2]
        obtain ⟨k1, k2, k3, k4, k5, k6, k7⟩ := dropFrontRx_posinv s n
        exact ⟨k1, k2, k4, k5⟩

/-- Position invariant of `popAllRxBuffer`. -/
theorem popAllRx_posinv (s : State) (o : Bool) (m : Nat) :
    (popAllRxBuffer s o m).2.2.rxPosition ≤ s.rxPosition ∧
    (popAllRxBuffer s o m).2.2.rxBufferSize = s.rxBufferSize ∧
    (popAllRxBuffer s o m).2.2.txBufferSize = s.txBufferSize ∧
    (popAllRxBuffer s o m).2.2.txPosition = s.txPosition := by
  unfold popAllRxBuffer
  by_cases h1 : o = true
  · rw [if_pos h1]
    exact ⟨le_refl _, rfl, rfl, rfl⟩
  · rw [if_neg h1]
    by_cases h2 : m = 0
    · rw [if_pos h2]
      exact ⟨le_refl _, rfl, rfl, rfl⟩
    · rw [if_neg h2]
      obtain ⟨k1, k2, k3, k4, k5, k6, k7⟩ := dropFrontRx_posinv s (min s.rxPosition m)
      exact ⟨k1, k2, k4, k5⟩

/-- Position invariant of `removeFrontRxBuffer`. -/
theorem removeFrontRx_posinv (s : State) (n : Nat) :
    (removeFrontRxBuffer s n).2.rxPosition ≤ s.rxPosition ∧
    (removeFrontRxBuffer s n).2.rxBufferSize = s.rxBufferSize ∧
    (removeFrontRxBuffer s n).2.txBufferSize = s.txBufferSize ∧
    (removeFrontRxBuffer s n).2.txPosition = s.txPosition := by
  unfold removeFrontRxBuffer
  by_cases h1 : n > s.rxPosition
  · rw [if_pos h1]
    exact ⟨le_refl _, rfl, rfl, rfl⟩
  · rw [if_neg h1]
    rcases ho : s.rxBuffer with _ | buf
    · exact ⟨Nat.sub_le _ _, rfl, rfl, rfl⟩
    · exact ⟨Nat.sub_le _ _, rfl, rfl, rfl⟩

/-- Field effects of `setRxBuffer`: position reset, new size, RX side
untouched. -/
theorem setRx_posinv (s : State) (b : Option (List Nat)) (n : Nat) :
    (setRxBuffer s b n).rxPosition = 0 ∧
    (setRxBuffer s b n).rxBufferSize = n ∧
    (setRxBuffer s b n).txBufferSize = s.txBufferSize ∧
    (setRxBuffer s b n).txPosition = s.txPosition := by
  rcases b with _ | bb
  · exact ⟨rfl, rfl, rfl, rfl⟩
  · by_cases hn : n ≠ 0
    · refine ⟨?_, ?_, ?_, ?_⟩ <;> simp only [setRxBuffer, if_pos hn]
    · refine ⟨?_, ?_, ?_, ?_⟩ <;> simp only [setRxBuffer, if_neg hn]

/-- Field effects of `clearRxBuffer`. -/
theorem clearRx_posinv (s : State) :
    (clearRxBuffer s).rxPosition = 0 ∧
    (clearRxBuffer s).rxBufferSize = s.rxBufferSize ∧
    (clearRxBuffer s).txBufferSize = s.txBufferSize ∧
    (clearRxBuffer s).txPosition = s.txPosition := by
  rcases ho : s.rxBuffer with _ | buf
  · refine ⟨?_, ?_, ?_, ?_⟩ <;> simp only [clearRxBuffer, ho]
  · by_cases hn : s.rxBufferSize ≠ 0
    · refine ⟨?_, ?_, ?_, ?_⟩ <;> simp only [clearRxBuffer, ho, if_pos hn]
    · refine ⟨?_, ?_, ?_, ?_⟩ <;> simp only [clearRxBuffer, ho, if_neg hn]

end StreamEx

namespace StreamEx

/-- Every call preserves the weak invariant: used lengths stay at most
the capacities (bind needs its size argument to be a `uint32_t` value). -/
theorem applyOp_PosLe (s : State) (op : Op) (hok : OpSizeOK op = true)
    (h : PosLe s) : PosLe (applyOp s op) := by
  obtain ⟨h1, h2, h3, h4⟩ := h
  cases op with
  | bindTx b n =>
    obtain ⟨k1, k2, k3, k4⟩ := setTx_posinv s b n
    simp only [OpSizeOK, decide_eq_true_eq] at hok
    refine ⟨?_, ?_, ?_, ?_⟩ <;> simp only [applyOp, k1, k2, k3, k4] <;> omega
  | bindRx b n =>
    obtain ⟨k1, k2, k3, k4⟩ := setRx_posinv s b n
    simp only [OpSizeOK, decide_eq_true_eq] at hok
    refine ⟨?_, ?_, ?_, ?_⟩ <;> simp only [applyOp, k1, k2, k3, k4] <;> omega
  | clearTx =>
    obtain ⟨k1, k2, k3, k4⟩ := clearTx_posinv s
    refine ⟨?_, ?_, ?_, ?_⟩ <;> simp only [applyOp, k1, k2, k3, k4] <;> omega
  | clearRx =>
    obtain ⟨k1, k2, k3, k4⟩ := clearRx_posinv s
    refine ⟨?_, ?_, ?_, ?_⟩ <;> simp only [applyOp, k1, k2, k3, k4] <;> omega
  | overwriteTx d n =>
    obtain ⟨w1, w2, w3, w4⟩ := writeTx_posinv s d n h1
    exact ⟨by simp only [applyOp]; rw [w2]; exact w1,
      by simp only [applyOp]; rw [w3, w4]; exact h2,
      by simp only [applyOp]; rw [w2]; exact h3,
      by simp only [applyOp]; rw [w3]; exact h4⟩
  | overwriteRx d n =>
    obtain ⟨w1, w2, w3, w4⟩ := writeRx_posinv s d n h2
    exact ⟨by simp only [applyOp]; rw [w3, w4]; exact h1,
      by simp only [applyOp]; rw [w2]; exact w1,
      by simp only [applyOp]; rw [w3]; exact h3,
      by simp only [applyOp]; rw [w2]; exact h4⟩
  | appendTx d n =>
    obtain ⟨p1, p2, p3, p4, p5⟩ := pushBackTx_posinv s d n h3 h1
    exact ⟨by simp only [applyOp]; rw [p3]; exact p1,
      by simp only [applyOp]; rw [p4, p5]; exact h2,
      by simp only [applyOp]; rw [p3]; exact h3,
      by simp only [applyOp]; rw [p4]; exact h4⟩
  | appendRx d n =>
    obtain ⟨p1, p2, p3, p4, p5⟩ := pushBackRx_posinv s d n h4 h2
    exact ⟨by simp only [applyOp]; rw [p4, p5]; exact h1,
      by simp only [applyOp]; rw [p3]; exact p1,
      by simp only [applyOp]; rw [p4]; exact h3,
      by simp only [applyOp]; rw [p3]; exact h4⟩
  | popFrontTx o n =>
    obtain ⟨q1, q2, q3, q4⟩ := popFrontTx_posinv s o n
    exact ⟨by simp only [applyOp]; rw [q2]; omega,
      by simp only [applyOp]; rw [q3, q4]; exact h2,
      by simp only [applyOp]; rw [q2]; exact h3,
      by simp only [applyOp]; rw [q3]; exact h4⟩
  | popFrontRx o n =>
    obtain ⟨q1, q2, q3, q4⟩ := popFrontRx_posinv s o n
    exact ⟨by simp only [applyOp]; rw [q3, q4]; exact h1,
      by simp only [applyOp]; rw [q2]; omega,
      by simp only [applyOp]; rw [q3]; exact h3,
      by simp only [applyOp]; rw [q2]; exact h4⟩
  | popAllTx o n =>
    obtain ⟨q1, q2, q3, q4⟩ := popAllTx_posinv s o n
    exact ⟨by simp only [applyOp]; rw [q2]; omega,
      by simp only [applyOp]; rw [q3, q4]; exact h2,
      by simp only [applyOp]; rw [q2]; exact h3,
      by simp only [applyOp]; rw [q3]; exact h4⟩
  | popAllRx o n =>
    obtain ⟨q1, q2, q3, q4⟩ := popAllRx_posinv s o n
    exact ⟨by simp only [applyOp]; rw [q3, q4]; exact h1,
      by simp only [applyOp]; rw [q2]; omega,
      by simp only [applyOp]; rw [q3]; exact h3,
      by simp only [applyOp]; rw [q2]; exact h4⟩
  | removeFrontTx n =>
    obtain ⟨q1, q2, q3, q4⟩ := removeFrontTx_posinv s n
    exact ⟨by simp only [applyOp]; rw [q2]; omega,
      by simp only [applyOp]; rw [q3, q4]; exact h2,
      by simp only [applyOp]; rw [q2]; exact h3,
      by simp only [applyOp]; rw [q3]; exact h4⟩
  | removeFrontRx n =>
    obtain ⟨q1, q2, q3, q4⟩ := removeFrontRx_posinv s n
    exact ⟨by simp only [applyOp]; rw [q3, q4]; exact h1,
      by simp only [applyOp]; rw [q2]; omega,
      by simp only [applyOp]; rw [q3]; exact h3,
      by simp only [applyOp]; rw [q2]; exact h4⟩

/-- Every non-overwrite call preserves the strict invariant: each buffer
remains empty or strictly below its capacity. -/
theorem applyOp_PosLt (s : State) (op : Op) (hok : OpSizeOK op = true)
    (hno : NotOverwrite op = true) (hLe : PosLe s) (hLt : PosLt s) :
    PosLt (applyOp s op) := by
  obtain ⟨h1, h2, h3, h4⟩ := hLe
  obtain ⟨l1, l2⟩ := hLt
  cases op with
  | bindTx b n =>
    obtain ⟨k1, k2, k3, k4⟩ := setTx_posinv s b n
    exact ⟨Or.inl (by simp only [applyOp]; rw [k1]),
      by simp only [applyOp]; rw [k3, k4]; exact l2⟩
  | bindRx b n =>
    obtain ⟨k1, k2, k3, k4⟩ := setRx_posinv s b n
    exact ⟨by simp only [applyOp]; rw [k3, k4]; exact l1,
      Or.inl (by simp only [applyOp]; rw [k1])⟩
  | clearTx =>
    obtain ⟨k1, k2, k3, k4⟩ := clearTx_posinv s
    exact ⟨Or.inl (by simp only [applyOp]; rw [k1]),
      by simp only [applyOp]; rw [k3, k4]; exact l2⟩
  | clearRx =>
    obtain ⟨k1, k2, k3, k4⟩ := clearRx_posinv s
    exact ⟨by simp only [applyOp]; rw [k3, k4]; exact l1,
      Or.inl (by simp only [applyOp]; rw [k1])⟩
  | overwriteTx d n => simp [NotOverwrite] at hno
  | overwriteRx d n => simp [NotOverwrite] at hno
  | appendTx d n =>
    obtain ⟨p1, p2, p3, p4, p5⟩ := pushBackTx_posinv s d n h3 h1
    refine ⟨?_, by simp only [applyOp]; rw [p4, p5]; exact l2⟩
    have := p2 l1
    simp only [applyOp]
    rw [p3]
    exact this
  | appendRx d n =>
    obtain ⟨p1, p2, p3, p4, p5⟩ := pushBackRx_posinv s d n h4 h2
    refine ⟨by simp only [applyOp]; rw [p4, p5]; exact l1, ?_⟩
    have := p2 l2
    simp only [applyOp]
    rw [p3]
    exact this
  | popFrontTx o n =>
    obtain ⟨q1, q2, q3, q4⟩ := popFrontTx_posinv s o n
    refine ⟨?_, by simp only [applyOp]; rw [q3, q4]; exact l2⟩
    rcases l1 with h | h
    · exact Or.inl (by simp only [applyOp]; omega)
    · exact Or.inr (by simp only [applyOp]; rw [q2]; omega)
  | popFrontRx o n =>
    obtain ⟨q1, q2, q3, q4⟩ := popFrontRx_posinv s o n
    refine ⟨by simp only [applyOp]; rw [q3, q4]; exact l1, ?_⟩
    rcases l2 with h | h
    · exact Or.inl (by simp only [applyOp]; omega)
    · exact Or.inr (by simp only [applyOp]; rw [q2]; omega)
  | popAllTx o n =>
    obtain ⟨q1, q2, q3, q4⟩ := popAllTx_posinv s o n
    refine ⟨?_, by simp only [applyOp]; rw [q3, q4]; exact l2⟩
    rcases l1 with h | h
    · exact Or.inl (by simp only [applyOp]; omega)
    · exact Or.inr (by simp only [applyOp]; rw [q2]; omega)
  | popAllRx o n =>
    obtain ⟨q1, q2, q3, q4⟩ := popAllRx_posinv s o n
    refine ⟨by simp only [applyOp]; rw [q3, q4]; exact l1, ?_⟩
    rcases l2 with h | h
    · exact Or.inl (by simp only [applyOp]; omega)
    · exact Or.inr (by simp only [applyOp]; rw [q2]; omega)
  | removeFrontTx n =>
    obtain ⟨q1, q2, q3, q4⟩ := removeFrontTx_posinv s n
    refine ⟨?_, by simp only [applyOp]; rw [q3, q4]; exact l2⟩
    rcases l1 with h | h
    · exact Or.inl (by simp only [applyOp]; omega)
    · exact Or.inr (by simp only [applyOp]; rw [q2]; omega)
  | removeFrontRx n =>
    obtain ⟨q1, q2, q3, q4⟩ := removeFrontRx_posinv s n
    refine ⟨by simp only [applyOp]; rw [q3, q4]; exact l1, ?_⟩
    rcases l2 with h | h
    · exact Or.inl (by simp only [applyOp]; omega)
    · exact Or.inr (by simp only [applyOp]; rw [q2]; omega)

/-- The weak invariant holds after any well-formed call sequence. -/
theorem runOps_PosLe (ops : List Op) : ∀ s : State, PosLe s →
    (∀ op ∈ ops, OpSizeOK op = true) → PosLe (runOps s ops) := by
  induction ops with
  | nil =>
    intro s h _
    simpa [runOps] using h
  | cons op rest ih =>
    intro s h hok
    have hstep := applyOp_PosLe s op (hok op (List.mem_cons_self op rest)) h
    have := ih (applyOp s op) hstep (fun o ho => hok o (List.mem_cons_of_mem op ho))
    simpa [runOps] using this

/-- The strict invariant holds after any well-formed overwrite-free call
sequence. -/
theorem runOps_PosLt (ops : List Op) : ∀ s : State, PosLe s → PosLt s →
    (∀ op ∈ ops, OpSizeOK op = true) →
    (∀ op ∈ ops, NotOverwrite op = true) → PosLt (runOps s ops) := by
  induction ops with
  | nil =>
    intro s _ h _ _
    simpa [runOps] using h
  | cons op rest ih =>
    intro s hLe hLt hok hno
    have hLe1 := applyOp_PosLe s op (hok op (List.mem_cons_self op rest)) hLe
    have hLt1 := applyOp_PosLt s op (hok op (List.mem_cons_self op rest))
      (hno op (List.mem_cons_self op rest)) hLe hLt
    have := ih (applyOp s op) hLe1 hLt1
      (fun o ho => hok o (List.mem_cons_of_mem op ho))
      (fun o ho => hno o (List.mem_cons_of_mem op ho))
    simpa [runOps] using this

/-- Field values right after construction. -/
theorem construct_posfields (tx : Option (List Nat)) (a : Nat)
    (rx : Option (List Nat)) (b : Nat) :
    (construct tx a rx b).txPosition = 0 ∧ (construct tx a rx b).rxPosition = 0 ∧
    (construct tx a rx b).txBufferSize = a ∧ (construct tx a rx b).rxBufferSize = b := by
  rcases tx with _ | t <;> rcases rx with _ | r <;>
    refine ⟨?_, ?_, ?_, ?_⟩ <;> simp only [construct] <;> split_ifs <;> rfl

end StreamEx

namespace StreamEx

/-- C1, counterexample to the claim as stated: the operation list
includes overwrite, and a successful writeTxBuffer with size = capacity
(allowed, since its check is size > capacity) leaves used_length equal to
the capacity — not strictly below it. -/
theorem C1_counterexample :
    (runOps (construct (some [7]) 1 none 0) [Op.overwriteTx [65] 1]).txPosition = 1 ∧
    (runOps (construct (some [7]) 1 none 0) [Op.overwriteTx [65] 1]).txBufferSize = 1 ∧
    ¬((runOps (construct (some [7]) 1 none 0) [Op.overwriteTx [65] 1]).txPosition <
      (runOps (construct (some [7]) 1 none 0) [Op.overwriteTx [65] 1]).txBufferSize) := by
  decide

/-- C1 (amended): for every buffer (TX or RX) and any sequence of bind,
clear, overwrite, append, pop-front, pop-all and remove-front calls with
`uint32_t` arguments, the used length satisfies
0 ≤ used_length ≤ capacity; when the sequence contains no overwrite
(writeTxBuffer/writeRxBuffer), the strict bound holds: each buffer is
empty or has used_length < capacity (so 0 ≤ used_length < C whenever the
buffer has capacity C > 0).  Overwrite can reach used_length = capacity,
as the counterexample shows, so the claimed strict bound fails only
through it. -/
theorem C1_used_length_invariant
    (tx : Option (List Nat)) (txSize : Nat) (rx : Option (List Nat)) (rxSize : Nat)
    (ops : List Op)
    (htx : txSize < 4294967296) (hrx : rxSize < 4294967296)
    (hok : ∀ op ∈ ops, OpSizeOK op = true) :
    ((runOps (construct tx txSize rx rxSize) ops).txPosition ≤
       (runOps (construct tx txSize rx rxSize) ops).txBufferSize ∧
     (runOps (construct tx txSize rx rxSize) ops).rxPosition ≤
       (runOps (construct tx txSize rx rxSize) ops).rxBufferSize) ∧
    ((∀ op ∈ ops, NotOverwrite op = true) →
      ((runOps (construct tx txSize rx rxSize) ops).txPosition = 0 ∨
       (runOps (construct tx txSize rx rxSize) ops).txPosition <
         (runOps (construct tx txSize rx rxSize) ops).txBufferSize) ∧
      ((runOps (construct tx txSize rx rxSize) ops).rxPosition = 0 ∨
       (runOps (construct tx txSize rx rxSize) ops).rxPosition <
         (runOps (construct tx txSize rx rxSize) ops).rxBufferSize)) := by
  obtain ⟨c1, c2, c3, c4⟩ := construct_posfields tx txSize rx rxSize
  have hLe0 : PosLe (construct tx txSize rx rxSize) := by
    refine ⟨?_, ?_, ?_, ?_⟩ <;> omega
  have hinv := runOps_PosLe ops (construct tx txSize rx rxSize) hLe0 hok
  refine ⟨⟨hinv.1, hinv.2.1⟩, ?_⟩
  intro hno
  have hLt0 : PosLt (construct tx txSize rx rxSize) := ⟨Or.inl c1, Or.inl c2⟩
  exact runOps_PosLt ops (construct tx txSize rx rxSize) hLe0 hLt0 hok hno

/-- Concrete overwrite-free call sequence for the C1 witness. -/
def c1ops : List Op :=
  [Op.appendTx (some [1, 2]) 2, Op.popFrontTx false 1,
   Op.bindRx (some [0, 0, 0]) 3, Op.appendRx (some [5]) 1,
   Op.removeFrontTx 1, Op.clearRx, Op.popAllTx false 9]

/-- C1, witness: the invariant theorem applied to a capacity-4 TX buffer
and a rebound capacity-3 RX buffer over a seven-call sequence. -/
theorem C1_witness :
    ((runOps (construct (some [0, 0, 0, 0]) 4 none 0) c1ops).txPosition ≤
       (runOps (construct (some [0, 0, 0, 0]) 4 none 0) c1ops).txBufferSize ∧
     (runOps (construct (some [0, 0, 0, 0]) 4 none 0) c1ops).rxPosition ≤
       (runOps (construct (some [0, 0, 0, 0]) 4 none 0) c1ops).rxBufferSize) ∧
    (((runOps (construct (some [0, 0, 0, 0]) 4 none 0) c1ops).txPosition = 0 ∨
      (runOps (construct (some [0, 0, 0, 0]) 4 none 0) c1ops).txPosition <
        (runOps (construct (some [0, 0, 0, 0]) 4 none 0) c1ops).txBufferSize) ∧
     ((runOps (construct (some [0, 0, 0, 0]) 4 none 0) c1ops).rxPosition = 0 ∨
      (runOps (construct (some [0, 0, 0, 0]) 4 none 0) c1ops).rxPosition <
        (runOps (construct (some [0, 0, 0, 0]) 4 none 0) c1ops).rxBufferSize)) := by
  have h := C1_used_length_invariant (some [0, 0, 0, 0]) 4 none 0 c1ops
    (by decide) (by decide) (by decide)
  exact ⟨⟨h.1.1, h.1.2⟩, h.2 (by decide)⟩

end StreamEx
